import Mathlib

/-
  Verification of the template-aware extraction/synthesis engine of the
  AS_IS-TO_BE HTML slide editor (files as_is_to_be_9_1.py, variant B, and
  as_is_to_be_5.py, variant A).

  The document model is a shallow embedding of the BeautifulSoup node tree:
  an element carries its tag name, its (multi-valued) class attribute --
  BeautifulSoup stores the class attribute as a list of tokens -- its other
  attributes as an association list, and its children.  A parsed soup object
  is a container of top-level nodes (HDoc).  String-level helpers
  (str.replace, str.split, str.strip, str.lower, substring tests) are
  modelled by structurally recursive functions over the character list of
  the string, so that everything evaluates inside the kernel.
-/

set_option maxHeartbeats 4000000

namespace Slide

/-- One node of the BeautifulSoup document tree: either a NavigableString
(text node) or a Tag with name, class list, remaining attributes and
children. -/
inductive Node where
  | text (s : String)
  | elem (tag : String) (classes : List String) (attrs : List (String × String)) (children : List Node)

/-- The soup object itself: an unnamed container of top-level nodes (the
BeautifulSoup document is not an element and is never matched by selectors). -/
structure HDoc where
  nodes : List Node

/-! ## Character-level string helpers (Python str methods) -/

/-- Python str.replace of every occurrence of a carriage-return/line-feed
pair by a line feed, as in the first replace of the sources (left-to-right,
non-overlapping). -/
def repCRLF : List Char → List Char
  | [] => []
  | [c] => [c]
  | c :: d :: t =>
    if c = '\r' ∧ d = '\n' then '\n' :: repCRLF t else c :: repCRLF (d :: t)

/-- Python str.replace of every remaining carriage return by a line feed,
as in the second replace of the sources. -/
def repCR : List Char → List Char
  | [] => []
  | c :: t => (if c = '\r' then '\n' else c) :: repCR t

/-- The composed normalization value.replace(CRLF, LF).replace(CR, LF). -/
def normStr (s : String) : String := ⟨repCR (repCRLF s.data)⟩

/-- Python str.split of a string on the line-feed character; the result is
never empty and empty segments are kept, exactly as in Python. -/
def splitNl : List Char → List (List Char)
  | [] => [[]]
  | c :: t =>
    if c = '\n' then [] :: splitNl t
    else
      match splitNl t with
      | [] => [[c]]
      | h :: r => (c :: h) :: r

/-- String version of splitNl. -/
def splitNlStr (s : String) : List String := (splitNl s.data).map (fun l => ⟨l⟩)

/-- Join character segments with a line feed between consecutive segments
(Python sep.join with sep a line feed). -/
def joinNlC : List (List Char) → List Char
  | [] => []
  | l :: r => l ++ (if r.isEmpty then [] else '\n' :: joinNlC r)

/-- String version of joinNlC, modelling the join of get_text with the
line-feed separator. -/
def joinNlStr (ps : List String) : String := ⟨joinNlC (ps.map String.data)⟩

/-! ## The rich-text codec of as_is_to_be_9_1.py -/

/-- A br element as created by soup.new_tag. -/
def brNode : Node := .elem "br" [] [] []

/-- The child list produced by the append loop of set_rich_text: each text
segment becomes a text node, with a br element between consecutive segments
and none after the last. -/
def encodeParts : List String → List Node
  | [] => []
  | s :: rest =>
    .text s :: (if rest.isEmpty then [] else brNode :: encodeParts rest)

/-- set_rich_text of as_is_to_be_9_1.py, as the child list it installs in
the target element: normalize line endings, split on the line feed, insert
text nodes with br markers between consecutive parts. -/
def set_rich_text (value : String) : List Node :=
  encodeParts (splitNlStr (normStr value))

/-! ## Text extraction (get_text) -/

mutual
/-- The NavigableString descendants of a node in document order, as
collected by get_text (empty text nodes included when strip is not set). -/
def nodeStrings : Node → List String
  | .text s => [s]
  | .elem _ _ _ ch => listStrings ch
def listStrings : List Node → List String
  | [] => []
  | n :: ns => nodeStrings n ++ listStrings ns
end

/-- el.get_text with a line-feed separator and strip=False. -/
def getTextNl (n : Node) : String := joinNlStr (nodeStrings n)

/-- Source helper _text_with_newlines: get_text with a line-feed separator,
then normalize CRLF and CR to LF.  (The Python guard returning the empty
string for a missing or contentless element coincides with get_text of such
an element, which is already the empty string.) -/
def text_with_newlines (n : Node) : String := normStr (getTextNl n)

/-! ## CSS selector machinery

The sources query the tree through soupsieve selector strings built from
class tests, tag names, an attribute-equality test and the descendant
combinator.  A simple selector is modelled as an optional tag name, a list
of required class tokens and an optional exact attribute requirement; a
selector string is the list of its simple selectors (descendant
combinator between consecutive entries). -/

structure SSel where
  tag : Option String
  classes : List String
  attr : Option (String × String)

/-- Does a simple selector match an element with the given tag, class list
and attributes? -/
def matchesS (s : SSel) (t : String) (cl : List String) (a : List (String × String)) : Bool :=
  (match s.tag with
   | none => true
   | some tg => tg == t)
  && s.classes.all (fun c => cl.contains c)
  && (match s.attr with
      | none => true
      | some (k, v) => a.lookup k == some v)

/-- Is the current element a full match for one of the still-possible
selector suffixes (a suffix of length one whose head matches)? -/
def isHit (cs : List (List SSel)) (t : String) (cl : List String) (a : List (String × String)) : Bool :=
  cs.any (fun c =>
    match c with
    | [s] => matchesS s t cl a
    | _ => false)

/-- Selector suffixes that remain possible for the descendants of the
current element: every suffix remains (the descendant combinator may skip
this element), and a suffix whose head matches the element contributes its
tail. -/
def stepChains (cs : List (List SSel)) (t : String) (cl : List String) (a : List (String × String)) : List (List SSel) :=
  cs ++ cs.filterMap (fun c =>
    match c with
    | s :: rest => if matchesS s t cl a && !rest.isEmpty then some rest else none
    | [] => none)

mutual
/-- All elements of the subtree (the node itself included) matched by one
of the selector suffixes, in document (pre-)order, as returned by
soup.select. -/
def selNode (cs : List (List SSel)) : Node → List Node
  | .text _ => []
  | .elem t cl a ch =>
    (if isHit cs t cl a then [Node.elem t cl a ch] else [])
      ++ selList (stepChains cs t cl a) ch
def selList (cs : List (List SSel)) : List Node → List Node
  | [] => []
  | n :: ns => selNode cs n ++ selList cs ns
end

/-- soup.select for one selector string. -/
def select (c : List SSel) (d : HDoc) : List Node := selList [c] d.nodes

/-- soup.select_one: the first match in document order. -/
def selectOne (c : List SSel) (d : HDoc) : Option Node := (select c d).head?

/-! ### The selector strings used by the sources -/

/-- Selector h1. -/
def sH1 : List SSel := [⟨some "h1", [], none⟩]

/-- Selector .panel.left .side-label .tag. -/
def sLeftTag : List SSel :=
  [⟨none, ["panel", "left"], none⟩, ⟨none, ["side-label"], none⟩, ⟨none, ["tag"], none⟩]

/-- Selector .panel.right .side-label .tag. -/
def sRightTag : List SSel :=
  [⟨none, ["panel", "right"], none⟩, ⟨none, ["side-label"], none⟩, ⟨none, ["tag"], none⟩]

/-- Selector .panel.left .section p. -/
def sLeftSecP : List SSel :=
  [⟨none, ["panel", "left"], none⟩, ⟨none, ["section"], none⟩, ⟨some "p", [], none⟩]

/-- Selector .panel.right .section p. -/
def sRightSecP : List SSel :=
  [⟨none, ["panel", "right"], none⟩, ⟨none, ["section"], none⟩, ⟨some "p", [], none⟩]

/-- Selector .panel.user .section p. -/
def sUserSecP : List SSel :=
  [⟨none, ["panel", "user"], none⟩, ⟨none, ["section"], none⟩, ⟨some "p", [], none⟩]

/-- Selector .panel.left .section. -/
def sLeftSec : List SSel :=
  [⟨none, ["panel", "left"], none⟩, ⟨none, ["section"], none⟩]

/-- Selector .panel.right .section. -/
def sRightSec : List SSel :=
  [⟨none, ["panel", "right"], none⟩, ⟨none, ["section"], none⟩]

/-- Selector .panel.user .section. -/
def sUserSec : List SSel :=
  [⟨none, ["panel", "user"], none⟩, ⟨none, ["section"], none⟩]

/-- Selector .panel.left .section h3. -/
def sLeftSecH3 : List SSel :=
  [⟨none, ["panel", "left"], none⟩, ⟨none, ["section"], none⟩, ⟨some "h3", [], none⟩]

/-- Selector .panel.right .section h3. -/
def sRightSecH3 : List SSel :=
  [⟨none, ["panel", "right"], none⟩, ⟨none, ["section"], none⟩, ⟨some "h3", [], none⟩]

/-- Selector .panel.user (a single simple selector). -/
def sUserPanel : SSel := ⟨none, ["panel", "user"], none⟩

/-! ## Tree mutation primitives

Each write in the sources is a fresh soup.select followed by a mutation of
one selected element, or a decomposition of selected elements; they are
modelled as positional rewrites of the k-th match in document order. -/

mutual
/-- Rewrite the children of the k-th match (document order) of the selector
suffixes by f, leaving everything else unchanged; the state is the number
of earlier matches still to be skipped, or none once the rewrite happened. -/
def updNode (cs : List (List SSel)) (f : List Node → List Node) :
    Option Nat → Node → Node × Option Nat
  | st, .text s => (.text s, st)
  | st, .elem t cl a ch =>
    match st with
    | none => (.elem t cl a ch, none)
    | some k =>
      if isHit cs t cl a && k == 0 then (.elem t cl a (f ch), none)
      else
        let k1 : Nat := if isHit cs t cl a then k - 1 else k
        let p := updList (stepChains cs t cl a) f (some k1) ch
        (.elem t cl a p.1, p.2)
def updList (cs : List (List SSel)) (f : List Node → List Node) :
    Option Nat → List Node → List Node × Option Nat
  | st, [] => ([], st)
  | st, n :: ns =>
    let p := updNode cs f st n
    let q := updList cs f p.2 ns
    (p.1 :: q.1, q.2)
end

/-- Rewrite the children of the k-th match of a selector in the document. -/
def updDoc (c : List SSel) (k : Nat) (f : List Node → List Node) (d : HDoc) : HDoc :=
  ⟨(updList [c] f (some k) d.nodes).1⟩

mutual
/-- Decompose every match of the selector suffixes beyond the first k
(document order): a match is kept while the quota k is positive, and each
kept match decrements the quota; once the quota is exhausted every further
match is removed together with its subtree.  This is the effect of
selecting all matches and decomposing the slice from index k on. -/
def dropNode (cs : List (List SSel)) : Nat → Node → Option Node × Nat
  | k, .text s => (some (.text s), k)
  | k, .elem t cl a ch =>
    if isHit cs t cl a && k == 0 then (none, 0)
    else
      let k1 : Nat := if isHit cs t cl a then k - 1 else k
      let p := dropList (stepChains cs t cl a) k1 ch
      (some (.elem t cl a p.1), p.2)
def dropList (cs : List (List SSel)) : Nat → List Node → List Node × Nat
  | k, [] => ([], k)
  | k, n :: ns =>
    let p := dropNode cs k n
    let q := dropList cs p.2 ns
    (match p.1 with
     | some m => m :: q.1
     | none => q.1, q.2)
end

/-- Keep only the first k matches of a selector, removing the rest. -/
def dropDoc (c : List SSel) (k : Nat) (d : HDoc) : HDoc :=
  ⟨(dropList [c] k d.nodes).1⟩

mutual
/-- Decompose every element of the tree satisfying the predicate (the
subtree of a removed element disappears with it); the soup container at
the top is never itself a candidate. -/
def removeNode (p : String → List String → List (String × String) → Bool) : Node → Option Node
  | .text s => some (.text s)
  | .elem t cl a ch =>
    if p t cl a then none else some (.elem t cl a (removeList p ch))
def removeList (p : String → List String → List (String × String) → Bool) : List Node → List Node
  | [] => []
  | n :: ns =>
    match removeNode p n with
    | some m => m :: removeList p ns
    | none => removeList p ns
end

/-- Decompose every matching element of the document. -/
def removeDoc (p : String → List String → List (String × String) → Bool) (d : HDoc) : HDoc :=
  ⟨removeList p d.nodes⟩

mutual
/-- Move the first element (document order) satisfying the predicate to the
end of its parent's child list (extract followed by parent.append); the
Bool reports whether the element was found in the subtree. -/
def moveNode (p : String → List String → List (String × String) → Bool) : Node → Node × Bool
  | .text s => (.text s, false)
  | .elem t cl a ch =>
    let q := moveList p ch
    (.elem t cl a q.1, q.2)
def moveList (p : String → List String → List (String × String) → Bool) : List Node → List Node × Bool
  | [] => ([], false)
  | n :: ns =>
    match n with
    | .text s =>
      let q := moveList p ns
      (Node.text s :: q.1, q.2)
    | .elem t cl a ch =>
      if p t cl a then (ns ++ [Node.elem t cl a ch], true)
      else
        let r := moveNode p (.elem t cl a ch)
        if r.2 then (r.1 :: ns, true)
        else
          let q := moveList p ns
          (r.1 :: q.1, q.2)
end

/-- Move the first matching element of the document to the end of its
parent (the soup container counting as the parent of top-level nodes). -/
def moveDoc (p : String → List String → List (String × String) → Bool) (d : HDoc) : HDoc :=
  ⟨(moveList p d.nodes).1⟩

/-- Attribute assignment tag[key] = val: replace the value if the key is
present, append the pair otherwise. -/
def setAttr (key val : String) : List (String × String) → List (String × String)
  | [] => [(key, val)]
  | (k, v) :: r => if k == key then (k, val) :: r else (k, v) :: setAttr key val r

mutual
/-- Set an attribute on the first element named html (soup.html), in
document order; the Bool reports whether it was found. -/
def setHtmlNode (key val : String) : Node → Node × Bool
  | .text s => (.text s, false)
  | .elem t cl a ch =>
    if t == "html" then (.elem t cl (setAttr key val a) ch, true)
    else
      let q := setHtmlList key val ch
      (.elem t cl a q.1, q.2)
def setHtmlList (key val : String) : List Node → List Node × Bool
  | [] => ([], false)
  | n :: ns =>
    let p := setHtmlNode key val n
    if p.2 then (p.1 :: ns, true)
    else
      let q := setHtmlList key val ns
      (p.1 :: q.1, q.2)
end

/-! ## Miscellaneous Python semantics -/

/-- Python truthiness of a BeautifulSoup node: a NavigableString is truthy
when nonempty, a Tag when it has contents (len-based truthiness). -/
def nodeTruthy : Node → Bool
  | .text s => !(s == "")
  | .elem _ _ _ ch => !ch.isEmpty

/-- Python str.lower (restricted to the alphabets appearing here). -/
def lowerStr (s : String) : String := ⟨s.data.map Char.toLower⟩

/-- Does the first list start with the second one? -/
def startsWithCh : List Char → List Char → Bool
  | _, [] => true
  | [], _ :: _ => false
  | c :: cs, d :: ds => c == d && startsWithCh cs ds

/-- Python substring containment needle in hay. -/
def containsSub (hay needle : List Char) : Bool :=
  match hay with
  | [] => startsWithCh [] needle
  | _ :: t => startsWithCh hay needle || containsSub t needle

/-- The test "footer" in v.lower() of the source. -/
def hasFooterSub (v : String) : Bool := containsSub (lowerStr v).data "footer".data

/-! ## Variant B: as_is_to_be_9_1.py -/

namespace V91

/-- The closed field-name set FIELD_KEYS of as_is_to_be_9_1.py. -/
inductive FKey where
  | title
  | left_label | right_label
  | left_people | left_process | left_technology | left_data | left_output
  | right_people | right_process | right_technology | right_data | right_output
  | user_notes
deriving DecidableEq

/-- The list FIELD_KEYS in source order. -/
def FIELD_KEYS : List FKey :=
  [.title, .left_label, .right_label,
   .left_people, .left_process, .left_technology, .left_data, .left_output,
   .right_people, .right_process, .right_technology, .right_data, .right_output,
   .user_notes]

/-- DEFAULTS of as_is_to_be_9_1.py: TBD for every key, then the three
overrides (the user_notes default is the empty string). -/
def DEFAULTS : FKey → String
  | .left_label => "AS-IS (danes)"
  | .right_label => "Ambicija (to-be)"
  | .user_notes => ""
  | _ => "TBD"

/-- Helper get_text of parse_html_fields: select_one then
_text_with_newlines, the empty string when nothing matches. -/
def getTextSel (c : List SSel) (d : HDoc) : String :=
  match selectOne c d with
  | some el => text_with_newlines el
  | none => ""

/-- Helper sec of parse_html_fields: the idx-th entry of the selected
paragraph list if it exists and is truthy, the empty string otherwise. -/
def secVal (idx : Nat) (arr : List Node) : String :=
  match arr[idx]? with
  | some el => if nodeTruthy el then text_with_newlines el else ""
  | none => ""

/-- The dictionary built by parse_html_fields before the default loop. -/
def rawFields (d : HDoc) : FKey → String
  | .title => getTextSel sH1 d
  | .left_label => getTextSel sLeftTag d
  | .right_label => getTextSel sRightTag d
  | .left_people => secVal 0 (select sLeftSecP d)
  | .left_process => secVal 1 (select sLeftSecP d)
  | .left_technology => secVal 2 (select sLeftSecP d)
  | .left_data => secVal 3 (select sLeftSecP d)
  | .left_output => secVal 4 (select sLeftSecP d)
  | .right_people => secVal 0 (select sRightSecP d)
  | .right_process => secVal 1 (select sRightSecP d)
  | .right_technology => secVal 2 (select sRightSecP d)
  | .right_data => secVal 3 (select sRightSecP d)
  | .right_output => secVal 4 (select sRightSecP d)
  | .user_notes =>
    match selectOne sUserSecP d with
    | some el => if nodeTruthy el then text_with_newlines el else ""
    | none => ""

/-- parse_html_fields of as_is_to_be_9_1.py: the raw extraction followed by
the default-substitution loop over FIELD_KEYS (a falsy, that is empty,
value is replaced by the schema default). -/
def parse_html_fields (d : HDoc) (k : FKey) : String :=
  if rawFields d k == "" then DEFAULTS k else rawFields d k

/-- Guard label_lang in ("sl", "en") of the source. -/
def isLangCode : Option String → Bool
  | some x => x == "sl" || x == "en"
  | none => false

/-- Step 1 of apply_fields_to_html: force the lang attribute of the html
element to the requested language when one of the two codes is given. -/
def langStep (l : Option String) (d : HDoc) : HDoc :=
  match l with
  | some x => if x == "sl" || x == "en" then ⟨(setHtmlList "lang" x d.nodes).1⟩ else d
  | none => d

/-- Trim of one panel: when more than five sections match, decompose every
match beyond the fifth. -/
def trimPanel (c : List SSel) (d : HDoc) : HDoc :=
  if 5 < (select c d).length then dropDoc c 5 d else d

/-- Step 2: trim the left then the right panel. -/
def trimStep (d : HDoc) : HDoc := trimPanel sRightSec (trimPanel sLeftSec d)

/-- Step 3: keep only the first user section. -/
def trimUserStep (d : HDoc) : HDoc :=
  if 1 < (select sUserSec d).length then dropDoc sUserSec 1 d else d

/-- Helper set_text: replace the contents of the first match by the
rich-text encoding of the value (no-op when nothing matches). -/
def setTextSel (c : List SSel) (v : String) (d : HDoc) : HDoc :=
  updDoc c 0 (fun _ => set_rich_text v) d

/-- Helper set_sec: replace the contents of the idx-th matched paragraph by
the rich-text encoding of the value (no-op when there are not enough
matches). -/
def setSec (c : List SSel) (idx : Nat) (v : String) (d : HDoc) : HDoc :=
  updDoc c idx (fun _ => set_rich_text v) d

/-- Steps 4 to 6: write title, side labels, the ten positional section
paragraphs and the user notes. -/
def writeStep (f : FKey → String) (d : HDoc) : HDoc :=
  let d := setTextSel sH1 (f .title) d
  let d := setTextSel sLeftTag (f .left_label) d
  let d := setTextSel sRightTag (f .right_label) d
  let d := setSec sLeftSecP 0 (f .left_people) d
  let d := setSec sLeftSecP 1 (f .left_process) d
  let d := setSec sLeftSecP 2 (f .left_technology) d
  let d := setSec sLeftSecP 3 (f .left_data) d
  let d := setSec sLeftSecP 4 (f .left_output) d
  let d := setSec sRightSecP 0 (f .right_people) d
  let d := setSec sRightSecP 1 (f .right_process) d
  let d := setSec sRightSecP 2 (f .right_technology) d
  let d := setSec sRightSecP 3 (f .right_data) d
  let d := setSec sRightSecP 4 (f .right_output) d
  setTextSel sUserSecP (f .user_notes) d

/-- STATIC_LABELS of the source, as the desired heading list in section
order (people, process, technology, data, output) per language code. -/
def STATIC_LABELS (lang : String) : Option (List String) :=
  if lang == "sl" then some ["Ljudje:", "Proces:", "Tehnologija:", "Podatki:", "Output:"]
  else if lang == "en" then some ["People:", "Process:", "Technology:", "Data:", "Output:"]
  else none

/-- One heading write of the translation loop: overwrite the idx-th matched
heading with the vocabulary string when that heading exists and is truthy.
(The source selects the heading lists once and then mutates list entries;
rewriting the idx-th match of a fresh selection is the same operation since
the written headings are pairwise disjoint subtrees.) -/
def setHeadAt (c : List SSel) (idx : Nat) (txt : String) (d : HDoc) : HDoc :=
  match (select c d)[idx]? with
  | some el => if nodeTruthy el then updDoc c idx (fun _ => set_rich_text txt) d else d
  | none => d

/-- Step 7: when the requested language is a supported code, overwrite the
section headings of both panels position by position. -/
def headStep (l : Option String) (d : HDoc) : HDoc :=
  match l with
  | none => d
  | some x =>
    match STATIC_LABELS x with
    | none => d
    | some labels =>
      let w : Nat → HDoc → HDoc := fun idx d =>
        match labels[idx]? with
        | some txt => setHeadAt sRightSecH3 idx txt (setHeadAt sLeftSecH3 idx txt d)
        | none => d
      w 4 (w 3 (w 2 (w 1 (w 0 d))))

/-- The seven basic footer selectors of the source: footer,
[role='contentinfo'], .footer, #footer, .page-footer, .site-footer,
.app-footer. -/
def footerBasicSSels : List SSel :=
  [⟨some "footer", [], none⟩,
   ⟨none, [], some ("role", "contentinfo")⟩,
   ⟨none, ["footer"], none⟩,
   ⟨none, [], some ("id", "footer")⟩,
   ⟨none, ["page-footer"], none⟩,
   ⟨none, ["site-footer"], none⟩,
   ⟨none, ["app-footer"], none⟩]

/-- find_all(True, id=...): the id attribute contains footer,
case-insensitively. -/
def idFooterPred (_t : String) (_cl : List String) (a : List (String × String)) : Bool :=
  match a.lookup "id" with
  | some v => hasFooterSub v
  | none => false

/-- find_all(True, class_=...): some class token contains footer,
case-insensitively. -/
def classFooterPred (_t : String) (cl : List String) (_a : List (String × String)) : Bool :=
  cl.any hasFooterSub

/-- Step 8: remove footer landmarks -- first the seven basic selectors in
order, then every element whose id contains footer, then every element one
of whose class tokens contains footer.  (Decomposing each selected element
in turn equals removing every matching element: decomposing a node whose
ancestor is already decomposed is a no-op.) -/
def footerStep (d : HDoc) : HDoc :=
  let d := footerBasicSSels.foldl (fun d s => removeDoc (fun t cl a => matchesS s t cl a) d) d
  let d := removeDoc idFooterPred d
  removeDoc classFooterPred d

/-- Step 9: position the user panel as the last child of its parent.  The
source guards the move by the truthiness of the selected panel, so a user
panel without contents is left in place. -/
def moveUserStep (d : HDoc) : HDoc :=
  match selectOne [sUserPanel] d with
  | some el =>
    if nodeTruthy el then moveDoc (fun t cl a => matchesS sUserPanel t cl a) d else d
  | none => d

/-- apply_fields_to_html of as_is_to_be_9_1.py as the composition of its
steps in source order. -/
def apply_fields_to_html (d : HDoc) (f : FKey → String) (label_lang : Option String) : HDoc :=
  moveUserStep (footerStep (headStep label_lang
    (writeStep f (trimUserStep (trimStep (langStep label_lang d))))))

end V91

/-! ## Variant A: as_is_to_be_5.py -/

namespace V5

/-- The closed field-name set FIELD_KEYS of as_is_to_be_5.py. -/
inductive FKey where
  | title
  | left_label | right_label
  | left_people | left_process | left_technology | left_data | left_output
  | right_people | right_process | right_technology | right_data | right_output
  | page_number | footer_summary
deriving DecidableEq

/-- The list FIELD_KEYS in source order. -/
def FIELD_KEYS : List FKey :=
  [.title, .left_label, .right_label,
   .left_people, .left_process, .left_technology, .left_data, .left_output,
   .right_people, .right_process, .right_technology, .right_data, .right_output,
   .page_number, .footer_summary]

/-- DEFAULTS of as_is_to_be_5.py. -/
def DEFAULTS : FKey → String
  | .page_number => "1"
  | .left_label => "AS-IS (danes)"
  | .right_label => "Ambicija (to-be)"
  | .footer_summary => "Digitalizacija in centralizacija procesa z avtomatskimi kontrolami."
  | _ => "TBD"

/-- Python str.strip whitespace test (space, tab, line feed, carriage
return, vertical tab, form feed). -/
def isPyWS (c : Char) : Bool :=
  c == ' ' || c == '\t' || c == '\n' || c == '\r' || c == '\x0b' || c == '\x0c'

/-- Python str.strip. -/
def pyStrip (s : String) : String :=
  ⟨((s.data.dropWhile isPyWS).reverse.dropWhile isPyWS).reverse⟩

/-- el.get_text(strip=True): strip every descendant string, skip the ones
that strip to nothing, and concatenate the rest. -/
def getTextStrip (n : Node) : String :=
  String.join (((nodeStrings n).map pyStrip).filter (fun s => !(s == "")))

/-- Selector footer .pagenum. -/
def sPagenum : List SSel := [⟨some "footer", [], none⟩, ⟨none, ["pagenum"], none⟩]

/-- Selector footer strong. -/
def sFooterStrong : List SSel := [⟨some "footer", [], none⟩, ⟨some "strong", [], none⟩]

/-- Helper get_text of this variant: select_one then stripped text. -/
def getTextSel (c : List SSel) (d : HDoc) : String :=
  match selectOne c d with
  | some el => getTextStrip el
  | none => ""

/-- Helper sec of this variant. -/
def secVal (idx : Nat) (arr : List Node) : String :=
  match arr[idx]? with
  | some el => getTextStrip el
  | none => ""

/-- The dictionary built by parse_html_fields of as_is_to_be_5.py before
the default loop. -/
def rawFields (d : HDoc) : FKey → String
  | .title => getTextSel sH1 d
  | .left_label => getTextSel sLeftTag d
  | .right_label => getTextSel sRightTag d
  | .left_people => secVal 0 (select sLeftSecP d)
  | .left_process => secVal 1 (select sLeftSecP d)
  | .left_technology => secVal 2 (select sLeftSecP d)
  | .left_data => secVal 3 (select sLeftSecP d)
  | .left_output => secVal 4 (select sLeftSecP d)
  | .right_people => secVal 0 (select sRightSecP d)
  | .right_process => secVal 1 (select sRightSecP d)
  | .right_technology => secVal 2 (select sRightSecP d)
  | .right_data => secVal 3 (select sRightSecP d)
  | .right_output => secVal 4 (select sRightSecP d)
  | .page_number => getTextSel sPagenum d
  | .footer_summary => getTextSel sFooterStrong d

/-- parse_html_fields of as_is_to_be_5.py. -/
def parse_html_fields (d : HDoc) (k : FKey) : String :=
  if rawFields d k == "" then DEFAULTS k else rawFields d k

/-- el.string = value: replace the contents by one NavigableString. -/
def stringSet (v : String) : List Node → List Node := fun _ => [Node.text v]

/-- Helper set_text of this variant. -/
def setTextSel (c : List SSel) (v : String) (d : HDoc) : HDoc :=
  updDoc c 0 (stringSet v) d

/-- Helper set_sec of this variant. -/
def setSec (c : List SSel) (idx : Nat) (v : String) (d : HDoc) : HDoc :=
  updDoc c idx (stringSet v) d

/-- One heading write of the translation loop of this variant. -/
def setHeadAt (c : List SSel) (idx : Nat) (txt : String) (d : HDoc) : HDoc :=
  match (select c d)[idx]? with
  | some el => if nodeTruthy el then updDoc c idx (stringSet txt) d else d
  | none => d

/-- Step: heading translation of this variant (same vocabulary table). -/
def headStep (l : Option String) (d : HDoc) : HDoc :=
  match l with
  | none => d
  | some x =>
    match V91.STATIC_LABELS x with
    | none => d
    | some labels =>
      let w : Nat → HDoc → HDoc := fun idx d =>
        match labels[idx]? with
        | some txt => setHeadAt sRightSecH3 idx txt (setHeadAt sLeftSecH3 idx txt d)
        | none => d
      w 4 (w 3 (w 2 (w 1 (w 0 d))))

/-- langStep of this variant (same guard and assignment as variant B). -/
def langStep (l : Option String) (d : HDoc) : HDoc :=
  match l with
  | some x => if x == "sl" || x == "en" then ⟨(setHtmlList "lang" x d.nodes).1⟩ else d
  | none => d

/-- apply_fields_to_html of as_is_to_be_5.py: language attribute, title and
side labels, the ten section paragraphs, heading translation, then the two
footer fields.  No trimming, no footer removal, no repositioning. -/
def apply_fields_to_html (d : HDoc) (f : FKey → String) (label_lang : Option String) : HDoc :=
  let d := langStep label_lang d
  let d := setTextSel sH1 (f .title) d
  let d := setTextSel sLeftTag (f .left_label) d
  let d := setTextSel sRightTag (f .right_label) d
  let d := setSec sLeftSecP 0 (f .left_people) d
  let d := setSec sLeftSecP 1 (f .left_process) d
  let d := setSec sLeftSecP 2 (f .left_technology) d
  let d := setSec sLeftSecP 3 (f .left_data) d
  let d := setSec sLeftSecP 4 (f .left_output) d
  let d := setSec sRightSecP 0 (f .right_people) d
  let d := setSec sRightSecP 1 (f .right_process) d
  let d := setSec sRightSecP 2 (f .right_technology) d
  let d := setSec sRightSecP 3 (f .right_data) d
  let d := setSec sRightSecP 4 (f .right_output) d
  let d := headStep label_lang d
  let d := setTextSel sPagenum (f .page_number) d
  setTextSel sFooterStrong (f .footer_summary) d

end V5

/-! ## Translation wrapper (identical in both sources)

The optional translator library is modelled as an injected capability:
none models an absent library (import failure), and a capability returning
none models a translate call that raises; both degrade to the input. -/

/-- translate_text of both sources. -/
def translate_text (GT : Option (String → String → String → Option String))
    (txt src dest : String) : String :=
  if txt == "" then txt
  else
    match GT with
    | none => txt
    | some g =>
      if src == dest then txt
      else
        match g src dest txt with
        | some r => r
        | none => txt

/-! ## The template-document family

A well-formed document matching the template convention of the spec: an
html root (with an optional declared language), a body holding the title
heading, a left and a right panel -- each a side-label tag plus a list of
sections, every section a heading and a paragraph of free inline content
(text and br nodes) -- an unrelated extra sibling element with a custom
attribute, and the user-notes panel.  All text is arbitrary. -/

/-- Inline paragraph content: a text node or a br element. -/
inductive Inl where
  | txt (s : String)
  | br

/-- Inline content as document nodes. -/
def inlNode : Inl → Node
  | .txt s => .text s
  | .br => brNode

/-- A section paragraph. -/
def pNode (ps : List Inl) : Node := .elem "p" [] [] (ps.map inlNode)

/-- A section heading. -/
def h3Node (h : String) : Node := .elem "h3" [] [] [.text h]

/-- One panel section: heading text plus paragraph inline content. -/
structure Sec where
  head : String
  ps : List Inl

/-- A section element. -/
def secNode (s : Sec) : Node := .elem "div" ["section"] [] [h3Node s.head, pNode s.ps]

/-- The side-label tag span. -/
def tagNode (v : List Inl) : Node := .elem "span" ["tag"] [] (v.map inlNode)

/-- The side-label wrapper. -/
def sideLabelNode (v : List Inl) : Node := .elem "div" ["side-label"] [] [tagNode v]

/-- A left or right panel. -/
def panelNode (side : String) (label : List Inl) (secs : List Sec) : Node :=
  .elem "div" ["panel", side] [] (sideLabelNode label :: secs.map secNode)

/-- The user-notes panel. -/
def userPanelNode (u : Sec) : Node := .elem "div" ["panel", "user"] [] [secNode u]

/-- The title heading. -/
def h1Node (t : List Inl) : Node := .elem "h1" [] [] (t.map inlNode)

/-- The lang attribute of the html element, when declared. -/
def langAttrs : Option String → List (String × String)
  | some l => [("lang", l)]
  | none => []

/-- An unrelated extra sibling element with a custom attribute value and
text content, not matching any slot or footer convention. -/
def extraNode (v s : String) : Node := .elem "div" ["extra"] [("data-x", v)] [.text s]

/-- A template-convention document: html(lang?) > body > h1, left panel,
right panel, extra sibling, user panel. -/
def slideDoc (lang : Option String) (title ll rl : List Inl) (ls rs : List Sec)
    (u : Sec) (v s : String) : HDoc :=
  ⟨[.elem "html" [] (langAttrs lang)
     [.elem "body" [] []
       [h1Node title, panelNode "left" ll ls, panelNode "right" rl rs,
        extraNode v s, userPanelNode u]]]⟩

/-- The inline form of the rich-text encoding. -/
def encodePartsI : List String → List Inl
  | [] => []
  | s :: rest =>
    .txt s :: (if rest.isEmpty then [] else .br :: encodePartsI rest)

/-- set_rich_text as inline content. -/
def encodeI (v : String) : List Inl := encodePartsI (splitNlStr (normStr v))

/-- The text strings of inline content (what get_text collects). -/
def inlStrs : List Inl → List String
  | [] => []
  | .txt s :: r => s :: inlStrs r
  | .br :: r => inlStrs r

/-- A node that can never be interpreted as document structure: a plain
text node, or the bare br line-break marker. -/
def inertNode : Node → Bool
  | .text _ => true
  | .elem tg cls ats ch => tg == "br" && cls.isEmpty && ats.isEmpty && ch.isEmpty

/-- No selector suffix in the set can match a bare br element (true of
every selector the sources use, since each simple selector requires a tag
other than br, a class, or an attribute). -/
def brSafeChains (cs : List (List SSel)) : Bool :=
  cs.all (fun c =>
    match c with
    | [] => true
    | st :: _ => !(matchesS st "br" [] []))

/-- The decoded text of inline content (get_text with the line-feed
separator, then CR normalization). -/
def decodeInl (ps : List Inl) : String := normStr (joinNlStr (inlStrs ps))

mutual
/-- Number of elements of a subtree (the node itself included) satisfying a
predicate on tag, class list and attributes. -/
def cNode (p : String → List String → List (String × String) → Bool) : Node → Nat
  | .text _ => 0
  | .elem t cl a ch => (if p t cl a then 1 else 0) + cList p ch
def cList (p : String → List String → List (String × String) → Bool) : List Node → Nat
  | [] => 0
  | n :: ns => cNode p n + cList p ns
end

/-- Number of elements of a document satisfying a predicate. -/
def countDoc (p : String → List String → List (String × String) → Bool) (d : HDoc) : Nat :=
  cList p d.nodes

/-- A conventional footer landmark as described by the spec: a footer tag,
a contentinfo role, or an id or class token containing footer
case-insensitively (the union of the removal predicates of the source). -/
def isFooterLandmark (t : String) (cl : List String) (a : List (String × String)) : Bool :=
  matchesS ⟨some "footer", [], none⟩ t cl a
    || matchesS ⟨none, [], some ("role", "contentinfo")⟩ t cl a
    || V91.idFooterPred t cl a
    || V91.classFooterPred t cl a

mutual
/-- Whether the first element (document order) satisfying the predicate is
the last child of its parent; none when no element satisfies it. -/
def ulNode (p : String → List String → List (String × String) → Bool) : Node → Option Bool
  | .text _ => none
  | .elem _ _ _ ch => ulList p ch
def ulList (p : String → List String → List (String × String) → Bool) : List Node → Option Bool
  | [] => none
  | .text _ :: ns => ulList p ns
  | .elem t cl a ch :: ns =>
    if p t cl a then some ns.isEmpty
    else
      match ulList p ch with
      | some b => some b
      | none => ulList p ns
end

/-- The notes panel, when present, is the last child of its parent
(vacuously true when absent). -/
def userPanelLast (d : HDoc) : Bool :=
  (ulList (fun t cl a => matchesS sUserPanel t cl a) d.nodes).getD true

mutual
/-- The attributes of the first element named html (soup.html). -/
def findHtmlNode : Node → Option (List (String × String))
  | .text _ => none
  | .elem t _ a ch => if t == "html" then some a else findHtmlList ch
def findHtmlList : List Node → Option (List (String × String))
  | [] => none
  | n :: ns =>
    match findHtmlNode n with
    | some a => some a
    | none => findHtmlList ns
end

/-- The declared document language: the lang attribute of the html
element, when both exist. -/
def docLang (d : HDoc) : Option String :=
  match findHtmlList d.nodes with
  | some a => a.lookup "lang"
  | none => none

/-- The structural slot of a field is absent from the document: the
corresponding selector query yields no element at the required position. -/
def slotMissing (d : HDoc) : V91.FKey → Bool
  | .title => (select sH1 d).isEmpty
  | .left_label => (select sLeftTag d).isEmpty
  | .right_label => (select sRightTag d).isEmpty
  | .left_people => ((select sLeftSecP d)[0]?).isNone
  | .left_process => ((select sLeftSecP d)[1]?).isNone
  | .left_technology => ((select sLeftSecP d)[2]?).isNone
  | .left_data => ((select sLeftSecP d)[3]?).isNone
  | .left_output => ((select sLeftSecP d)[4]?).isNone
  | .right_people => ((select sRightSecP d)[0]?).isNone
  | .right_process => ((select sRightSecP d)[1]?).isNone
  | .right_technology => ((select sRightSecP d)[2]?).isNone
  | .right_data => ((select sRightSecP d)[3]?).isNone
  | .right_output => ((select sRightSecP d)[4]?).isNone
  | .user_notes => (select sUserSecP d).isEmpty

/-- The user panel with an arbitrary list of notes sections (the template
has one; hand-edited uploads may have several). -/
def userPanelNodeL (us : List Sec) : Node :=
  .elem "div" ["panel", "user"] [] (us.map secNode)

/-- The template-family document generalized to a list of notes sections. -/
def slideDocU (lang : Option String) (title ll rl : List Inl) (ls rs us : List Sec)
    (v s : String) : HDoc :=
  ⟨[.elem "html" [] (langAttrs lang)
     [.elem "body" [] []
       [h1Node title, panelNode "left" ll ls, panelNode "right" rl rs,
        extraNode v s, userPanelNodeL us]]]⟩

/-- A sixth left-panel section carrying a custom marker attribute, for the
frame counterexample. -/
def markedSec : Node :=
  .elem "div" ["section"] [("data-mark", "z")] []

/-- A concrete template document whose left panel has six sections, the
sixth carrying a custom marker attribute. -/
def c2doc : HDoc :=
  ⟨[.elem "html" [] [] [.elem "body" [] []
     [h1Node [.txt "T"],
      .elem "div" ["panel", "left"] []
        [sideLabelNode [.txt "L"],
         secNode ⟨"a", [.txt "1"]⟩, secNode ⟨"b", [.txt "2"]⟩, secNode ⟨"c", [.txt "3"]⟩,
         secNode ⟨"d", [.txt "4"]⟩, secNode ⟨"e", [.txt "5"]⟩, markedSec],
      panelNode "right" [.txt "R"]
        [⟨"a", [.txt "1"]⟩, ⟨"b", [.txt "2"]⟩, ⟨"c", [.txt "3"]⟩,
         ⟨"d", [.txt "4"]⟩, ⟨"e", [.txt "5"]⟩],
      extraNode "V" "S",
      userPanelNode ⟨"User notes", [.txt "n"]⟩]]]⟩

/-- A concrete variant A document whose left panel has six sections. -/
def c5doc : HDoc :=
  ⟨[.elem "div" ["panel", "left"] []
     [secNode ⟨"a", []⟩, secNode ⟨"b", []⟩, secNode ⟨"c", []⟩,
      secNode ⟨"d", []⟩, secNode ⟨"e", []⟩, secNode ⟨"f", []⟩]]⟩

/-- A tiny constant field map for concrete runs of the synthesizers. -/
def xFields {K : Type} (_k : K) : String := "x"

/-- The raw (pre-default) extraction of a template-family document, slot by
slot. -/
def slideRaw (t ll rl : List Inl) (L1 L2 L3 L4 L5 R1 R2 R3 R4 R5 u : Sec) :
    V91.FKey → String
  | .title => decodeInl t
  | .left_label => decodeInl ll
  | .right_label => decodeInl rl
  | .left_people => decodeInl L1.ps
  | .left_process => decodeInl L2.ps
  | .left_technology => decodeInl L3.ps
  | .left_data => decodeInl L4.ps
  | .left_output => decodeInl L5.ps
  | .right_people => decodeInl R1.ps
  | .right_process => decodeInl R2.ps
  | .right_technology => decodeInl R3.ps
  | .right_data => decodeInl R4.ps
  | .right_output => decodeInl R5.ps
  | .user_notes => decodeInl u.ps

/-! # Lemmas and theorems -/

theorem repCR_no_cr (l : List Char) : '\r' ∉ repCR l := by
  induction l with
  | nil => simp [repCR]
  | cons c t ih =>
    simp only [repCR, List.mem_cons, not_or]
    refine ⟨?_, ih⟩
    split
    · decide
    · next h => exact fun e => h e.symm

theorem repCRLF_of_no_cr (l : List Char) (h : '\r' ∉ l) : repCRLF l = l := by
  induction l using repCRLF.induct with
  | case1 => rfl
  | case2 c => rfl
  | case3 c d t hcd ih =>
    simp only [List.mem_cons, not_or] at h
    exact absurd hcd.1.symm h.1
  | case4 c d t hcd ih =>
    simp only [List.mem_cons, not_or] at h
    rw [repCRLF, if_neg hcd,
      ih (by simp only [List.mem_cons, not_or]; exact ⟨h.2.1, h.2.2⟩)]

theorem repCR_of_no_cr (l : List Char) (h : '\r' ∉ l) : repCR l = l := by
  induction l with
  | nil => rfl
  | cons c t ih =>
    simp only [List.mem_cons, not_or] at h
    rw [repCR]
    have hc : ¬ c = '\r' := fun e => h.1 e.symm
    simp only [hc, if_false]
    rw [ih h.2]

theorem normStr_no_cr (s : String) : '\r' ∉ (normStr s).data :=
  repCR_no_cr _

theorem normStr_of_no_cr (s : String) (h : '\r' ∉ s.data) : normStr s = s := by
  cases s with
  | mk l =>
    show String.mk (repCR (repCRLF l)) = String.mk l
    rw [repCRLF_of_no_cr l h, repCR_of_no_cr l h]

theorem normStr_idem (s : String) : normStr (normStr s) = normStr s :=
  normStr_of_no_cr _ (normStr_no_cr s)

theorem splitNl_ne_nil (l : List Char) : splitNl l ≠ [] := by
  cases l with
  | nil => simp [splitNl]
  | cons c t =>
    rw [splitNl]
    split
    · simp
    · split <;> simp

theorem joinNlC_splitNl (l : List Char) : joinNlC (splitNl l) = l := by
  induction l with
  | nil => rfl
  | cons c t ih =>
    rw [splitNl]
    split
    · next hc =>
      subst hc
      obtain ⟨h, r, hr⟩ : ∃ h r, splitNl t = h :: r := by
        cases he : splitNl t with
        | nil => exact absurd he (splitNl_ne_nil t)
        | cons h r => exact ⟨h, r, rfl⟩
      rw [hr] at ih ⊢
      rw [joinNlC, List.isEmpty_cons, ih]
      rfl
    · next hc =>
      obtain ⟨h, r, hr⟩ : ∃ h r, splitNl t = h :: r := by
        cases he : splitNl t with
        | nil => exact absurd he (splitNl_ne_nil t)
        | cons h r => exact ⟨h, r, rfl⟩
      rw [hr] at ih ⊢
      rw [joinNlC] at ih
      simp only []
      rw [joinNlC, List.cons_append, ih]

theorem mk_data (s : String) : String.mk s.data = s := by
  cases s
  rfl

theorem joinNlStr_splitNlStr (s : String) : joinNlStr (splitNlStr s) = s := by
  cases s with
  | mk l =>
    show String.mk (joinNlC (((splitNl l).map (fun c => String.mk c)).map String.data)) = String.mk l
    rw [List.map_map]
    have : (String.data ∘ fun c : List Char => String.mk c) = id := by
      funext c
      rfl
    rw [this, List.map_id, joinNlC_splitNl]

theorem listStrings_encodeParts (ps : List String) : listStrings (encodeParts ps) = ps := by
  induction ps with
  | nil => rfl
  | cons s rest ih =>
    cases rest with
    | nil => rfl
    | cons s2 r2 =>
      simp only [encodeParts, List.isEmpty_cons, Bool.false_eq_true, if_false] at ih ⊢
      simp only [listStrings, nodeStrings, brNode, List.append_nil, List.nil_append,
        List.singleton_append]
      simp only [listStrings, nodeStrings, brNode, List.singleton_append,
        List.cons.injEq, true_and] at ih
      rw [ih]

theorem encodeParts_inert (ps : List String) : (encodeParts ps).all inertNode = true := by
  induction ps with
  | nil => rfl
  | cons s rest ih =>
    cases rest with
    | nil => rfl
    | cons s2 r2 =>
      simp only [encodeParts, List.isEmpty_cons, Bool.false_eq_true, if_false] at ih ⊢
      simp only [List.all_cons, Bool.and_eq_true] at ih ⊢
      exact ⟨rfl, by decide, ih.1, ih.2⟩

theorem decode_set_rich_text (t : String) (cl : List String) (a : List (String × String))
    (v : String) :
    text_with_newlines (.elem t cl a (set_rich_text v)) = normStr v := by
  show normStr (joinNlStr (listStrings (set_rich_text v))) = normStr v
  rw [set_rich_text, listStrings_encodeParts, joinNlStr_splitNlStr, normStr_idem]

/-- C3 counterexample: the claim quantifies over every string value, but a
value containing a carriage return (here inside a CRLF pair, so the value
does contain a newline character as in the claim) is normalized by the
encoder, so decoding does not return the original value exactly. -/
theorem claim_C3_cex :
    text_with_newlines (.elem "p" [] [] (set_rich_text "a\r\nb")) = "a\nb" ∧
      text_with_newlines (.elem "p" [] [] (set_rich_text "a\r\nb")) ≠ "a\r\nb" := by
  constructor
  · decide
  · decide

/-- C3 (amended): for every string value, encoding into an element (clear,
split on newline, text nodes with br markers between consecutive segments)
and decoding that element (text extraction with br-separated segments
joined by newline, carriage returns normalized) yields the CRLF/CR-to-LF
normalization of the value -- hence exactly the original value whenever it
contains no carriage return, including values with newlines and
markup-significant characters; and the encoded content consists of text
and br nodes only, so markup-significant characters are never interpreted
as document structure. -/
theorem claim_C3 (t : String) (cl : List String) (a : List (String × String)) (v : String) :
    text_with_newlines (.elem t cl a (set_rich_text v)) = normStr v ∧
      ('\r' ∉ v.data → text_with_newlines (.elem t cl a (set_rich_text v)) = v) ∧
      (set_rich_text v).all inertNode = true := by
  refine ⟨decode_set_rich_text t cl a v, ?_, encodeParts_inert _⟩
  intro h
  rw [decode_set_rich_text t cl a v, normStr_of_no_cr v h]

/-- C3 witness: a concrete multi-line value containing the
markup-significant characters of the claim round-trips exactly. -/
theorem claim_C3_witness :
    '\r' ∉ ("x<&\"\n y>z" : String).data ∧
      text_with_newlines (.elem "p" [] [] (set_rich_text "x<&\"\n y>z")) = "x<&\"\n y>z" :=
  ⟨by decide, (claim_C3 "p" [] [] "x<&\"\n y>z").2.1 (by decide)⟩

/-- C10: the translation wrapper returns an empty input unchanged for every
pair of language codes; the result does not depend on the injected
translation capability at all (the quantification ranges over every
capability, including ones that would return different text), which is the
pure rendering of the fact that the capability is never invoked. -/
theorem claim_C10 (GT : Option (String → String → String → Option String))
    (src dest : String) :
    translate_text GT "" src dest = "" := by
  rfl

/-! ## Traversal lemmas for inline content

Free inline content (text and br nodes) is invisible to every traversal
driven by the selectors of the sources: no selector matches a bare br. -/

theorem isHit_br_false (cs : List (List SSel)) (h : brSafeChains cs = true) :
    isHit cs "br" [] [] = false := by
  induction cs with
  | nil => rfl
  | cons c r ih =>
    simp only [brSafeChains, List.all_cons, Bool.and_eq_true] at h
    have hr := ih (by simp only [brSafeChains]; exact h.2)
    simp only [isHit] at hr
    simp only [isHit, List.any_cons, Bool.or_eq_false_iff]
    refine ⟨?_, hr⟩
    cases c with
    | nil => rfl
    | cons st rest =>
      cases rest with
      | nil =>
        simp only [] at h ⊢
        simpa using h.1
      | cons st2 r2 => rfl

theorem selList_inl (cs : List (List SSel)) (il : List Inl) (h : brSafeChains cs = true) :
    selList cs (List.map inlNode il) = [] := by
  induction il with
  | nil => rfl
  | cons i r ih =>
    cases i with
    | txt s =>
      simpa [selList, selNode, inlNode] using ih
    | br =>
      simp only [List.map_cons, selList, inlNode, brNode, selNode,
        isHit_br_false cs h, Bool.false_eq_true, if_false, List.nil_append]
      exact ih

theorem updList_inl (cs : List (List SSel)) (f : List Node → List Node)
    (st : Option Nat) (il : List Inl) (h : brSafeChains cs = true) :
    updList cs f st (List.map inlNode il) = (List.map inlNode il, st) := by
  induction il generalizing st with
  | nil => rfl
  | cons i r ih =>
    cases i with
    | txt s =>
      simp [updList, updNode, inlNode, ih]
    | br =>
      cases st with
      | none =>
        simp [updList, updNode, inlNode, brNode, ih]
      | some k =>
        simp only [List.map_cons, updList, updNode, inlNode, brNode,
          isHit_br_false cs h, Bool.false_and, Bool.false_eq_true, if_false]
        simp [updList, ih]

theorem dropList_inl (cs : List (List SSel)) (k : Nat) (il : List Inl)
    (h : brSafeChains cs = true) :
    dropList cs k (List.map inlNode il) = (List.map inlNode il, k) := by
  induction il generalizing k with
  | nil => rfl
  | cons i r ih =>
    cases i with
    | txt s =>
      simp [dropList, dropNode, inlNode, ih]
    | br =>
      simp only [List.map_cons, dropList, dropNode, inlNode, brNode,
        isHit_br_false cs h, Bool.false_and, Bool.false_eq_true, if_false]
      simp [dropList, ih]

theorem removeList_inl (p : String → List String → List (String × String) → Bool)
    (il : List Inl) (hbr : p "br" [] [] = false) :
    removeList p (List.map inlNode il) = List.map inlNode il := by
  induction il with
  | nil => rfl
  | cons i r ih =>
    cases i with
    | txt s => simp [removeList, removeNode, inlNode, ih]
    | br =>
      simp only [List.map_cons, removeList, removeNode, inlNode, brNode, hbr,
        Bool.false_eq_true, if_false]
      simp [removeList, ih]

theorem moveList_inl (p : String → List String → List (String × String) → Bool)
    (il : List Inl) (hbr : p "br" [] [] = false) :
    moveList p (List.map inlNode il) = (List.map inlNode il, false) := by
  induction il with
  | nil => rfl
  | cons i r ih =>
    cases i with
    | txt s => simp [moveList, inlNode, ih]
    | br =>
      simp only [List.map_cons, moveList, inlNode, brNode, hbr,
        Bool.false_eq_true, if_false, moveNode]
      simp [moveList, moveNode, ih]

theorem setHtmlList_inl (key val : String) (il : List Inl) :
    setHtmlList key val (List.map inlNode il) = (List.map inlNode il, false) := by
  induction il with
  | nil => rfl
  | cons i r ih =>
    cases i with
    | txt s => simp [setHtmlList, setHtmlNode, inlNode, ih]
    | br => simp [setHtmlList, setHtmlNode, inlNode, brNode, ih]

theorem listStrings_inl (il : List Inl) :
    listStrings (List.map inlNode il) = inlStrs il := by
  induction il with
  | nil => rfl
  | cons i r ih =>
    cases i with
    | txt s => simp [listStrings, nodeStrings, inlNode, inlStrs, ih]
    | br => simp [listStrings, nodeStrings, inlNode, brNode, inlStrs, ih]

theorem encodeParts_eq_mapI (ps : List String) :
    encodeParts ps = List.map inlNode (encodePartsI ps) := by
  induction ps with
  | nil => rfl
  | cons s2 r2 ih =>
    cases r2 with
    | nil => rfl
    | cons s3 r3 =>
      simp only [encodeParts, encodePartsI, List.isEmpty_cons, Bool.false_eq_true,
        if_false, List.map_cons, inlNode] at ih ⊢
      rw [ih]

theorem set_rich_text_eq_mapI (v : String) :
    set_rich_text v = List.map inlNode (encodeI v) :=
  encodeParts_eq_mapI _

theorem inlStrs_encodePartsI (ps : List String) : inlStrs (encodePartsI ps) = ps := by
  induction ps with
  | nil => rfl
  | cons s2 r2 ih =>
    cases r2 with
    | nil => rfl
    | cons s3 r3 =>
      simp only [encodePartsI, List.isEmpty_cons, Bool.false_eq_true, if_false,
        inlStrs] at ih ⊢
      rw [ih]

theorem decodeInl_encodeI (v : String) : decodeInl (encodeI v) = normStr v := by
  rw [decodeInl, encodeI, inlStrs_encodePartsI, joinNlStr_splitNlStr, normStr_idem]

theorem decodeInl_encodeI_of_no_cr (v : String) (h : '\r' ∉ v.data) :
    decodeInl (encodeI v) = v := by
  rw [decodeInl_encodeI, normStr_of_no_cr v h]

/-! ## Text extraction on family nodes -/

theorem twn_mapInl (t : String) (cl : List String) (a : List (String × String))
    (ps : List Inl) :
    text_with_newlines (.elem t cl a (List.map inlNode ps)) = decodeInl ps := by
  show normStr (joinNlStr (listStrings (List.map inlNode ps))) = decodeInl ps
  rw [listStrings_inl]
  rfl

theorem truthy_twn (el : Node) :
    (if nodeTruthy el then text_with_newlines el else "") = text_with_newlines el := by
  cases el with
  | text s =>
    by_cases h : s = ""
    · subst h; rfl
    · have : nodeTruthy (.text s) = true := by
        simp [nodeTruthy, h]
      rw [this, if_pos rfl]
  | elem t cl a ch =>
    cases ch with
    | nil => rfl
    | cons n r => rfl

theorem truthy_decodeInl (t : String) (cl : List String) (a : List (String × String))
    (ps : List Inl) :
    (if nodeTruthy (Node.elem t cl a (List.map inlNode ps)) = true then decodeInl ps else "")
    = decodeInl ps := by
  have := truthy_twn (Node.elem t cl a (List.map inlNode ps))
  rwa [twn_mapInl] at this

/-! ## Selector evaluation on the template family -/

theorem select_sH1_slide (l : Option String) (t ll rl : List Inl)
    (L1 L2 L3 L4 L5 R1 R2 R3 R4 R5 u : Sec) (v s : String) :
    select sH1 (slideDoc l t ll rl [L1, L2, L3, L4, L5] [R1, R2, R3, R4, R5] u v s)
    = [h1Node t] := by
  simp [select, slideDoc, selNode, selList, stepChains, isHit, matchesS, sH1,
    h1Node, panelNode, secNode, sideLabelNode, tagNode, pNode, h3Node,
    userPanelNode, extraNode, langAttrs, selList_inl, brSafeChains]

theorem select_sLeftTag_slide (l : Option String) (t ll rl : List Inl)
    (L1 L2 L3 L4 L5 R1 R2 R3 R4 R5 u : Sec) (v s : String) :
    select sLeftTag (slideDoc l t ll rl [L1, L2, L3, L4, L5] [R1, R2, R3, R4, R5] u v s)
    = [tagNode ll] := by
  simp [select, slideDoc, selNode, selList, stepChains, isHit, matchesS, sLeftTag,
    h1Node, panelNode, secNode, sideLabelNode, tagNode, pNode, h3Node,
    userPanelNode, extraNode, langAttrs, selList_inl, brSafeChains]

theorem select_sRightTag_slide (l : Option String) (t ll rl : List Inl)
    (L1 L2 L3 L4 L5 R1 R2 R3 R4 R5 u : Sec) (v s : String) :
    select sRightTag (slideDoc l t ll rl [L1, L2, L3, L4, L5] [R1, R2, R3, R4, R5] u v s)
    = [tagNode rl] := by
  simp [select, slideDoc, selNode, selList, stepChains, isHit, matchesS, sRightTag,
    h1Node, panelNode, secNode, sideLabelNode, tagNode, pNode, h3Node,
    userPanelNode, extraNode, langAttrs, selList_inl, brSafeChains]

theorem select_sLeftSecP_slide (l : Option String) (t ll rl : List Inl)
    (L1 L2 L3 L4 L5 R1 R2 R3 R4 R5 u : Sec) (v s : String) :
    select sLeftSecP (slideDoc l t ll rl [L1, L2, L3, L4, L5] [R1, R2, R3, R4, R5] u v s)
    = [pNode L1.ps, pNode L2.ps, pNode L3.ps, pNode L4.ps, pNode L5.ps] := by
  simp [select, slideDoc, selNode, selList, stepChains, isHit, matchesS, sLeftSecP,
    h1Node, panelNode, secNode, sideLabelNode, tagNode, pNode, h3Node,
    userPanelNode, extraNode, langAttrs, selList_inl, brSafeChains]

theorem select_sRightSecP_slide (l : Option String) (t ll rl : List Inl)
    (L1 L2 L3 L4 L5 R1 R2 R3 R4 R5 u : Sec) (v s : String) :
    select sRightSecP (slideDoc l t ll rl [L1, L2, L3, L4, L5] [R1, R2, R3, R4, R5] u v s)
    = [pNode R1.ps, pNode R2.ps, pNode R3.ps, pNode R4.ps, pNode R5.ps] := by
  simp [select, slideDoc, selNode, selList, stepChains, isHit, matchesS, sRightSecP,
    h1Node, panelNode, secNode, sideLabelNode, tagNode, pNode, h3Node,
    userPanelNode, extraNode, langAttrs, selList_inl, brSafeChains]

theorem select_sUserSecP_slide (l : Option String) (t ll rl : List Inl)
    (L1 L2 L3 L4 L5 R1 R2 R3 R4 R5 u : Sec) (v s : String) :
    select sUserSecP (slideDoc l t ll rl [L1, L2, L3, L4, L5] [R1, R2, R3, R4, R5] u v s)
    = [pNode u.ps] := by
  simp [select, slideDoc, selNode, selList, stepChains, isHit, matchesS, sUserSecP,
    h1Node, panelNode, secNode, sideLabelNode, tagNode, pNode, h3Node,
    userPanelNode, extraNode, langAttrs, selList_inl, brSafeChains]

theorem select_sLeftSec_slide (l : Option String) (t ll rl : List Inl)
    (L1 L2 L3 L4 L5 R1 R2 R3 R4 R5 u : Sec) (v s : String) :
    select sLeftSec (slideDoc l t ll rl [L1, L2, L3, L4, L5] [R1, R2, R3, R4, R5] u v s)
    = [secNode L1, secNode L2, secNode L3, secNode L4, secNode L5] := by
  simp [select, slideDoc, selNode, selList, stepChains, isHit, matchesS, sLeftSec,
    h1Node, panelNode, secNode, sideLabelNode, tagNode, pNode, h3Node,
    userPanelNode, extraNode, langAttrs, selList_inl, brSafeChains]

theorem select_sRightSec_slide (l : Option String) (t ll rl : List Inl)
    (L1 L2 L3 L4 L5 R1 R2 R3 R4 R5 u : Sec) (v s : String) :
    select sRightSec (slideDoc l t ll rl [L1, L2, L3, L4, L5] [R1, R2, R3, R4, R5] u v s)
    = [secNode R1, secNode R2, secNode R3, secNode R4, secNode R5] := by
  simp [select, slideDoc, selNode, selList, stepChains, isHit, matchesS, sRightSec,
    h1Node, panelNode, secNode, sideLabelNode, tagNode, pNode, h3Node,
    userPanelNode, extraNode, langAttrs, selList_inl, brSafeChains]

theorem select_sUserSec_slide (l : Option String) (t ll rl : List Inl)
    (L1 L2 L3 L4 L5 R1 R2 R3 R4 R5 u : Sec) (v s : String) :
    select sUserSec (slideDoc l t ll rl [L1, L2, L3, L4, L5] [R1, R2, R3, R4, R5] u v s)
    = [secNode u] := by
  simp [select, slideDoc, selNode, selList, stepChains, isHit, matchesS, sUserSec,
    h1Node, panelNode, secNode, sideLabelNode, tagNode, pNode, h3Node,
    userPanelNode, extraNode, langAttrs, selList_inl, brSafeChains]

/-- The raw extraction of a template-family document is the decoded slot
content, slot by slot. -/
theorem rawFields_slideDoc (l : Option String) (t ll rl : List Inl)
    (L1 L2 L3 L4 L5 R1 R2 R3 R4 R5 u : Sec) (v s : String) (k : V91.FKey) :
    V91.rawFields (slideDoc l t ll rl [L1, L2, L3, L4, L5] [R1, R2, R3, R4, R5] u v s) k
    = slideRaw t ll rl L1 L2 L3 L4 L5 R1 R2 R3 R4 R5 u k := by
  cases k <;>
    simp only [V91.rawFields, V91.getTextSel, V91.secVal, selectOne, slideRaw,
      select_sH1_slide, select_sLeftTag_slide, select_sRightTag_slide,
      select_sLeftSecP_slide, select_sRightSecP_slide, select_sUserSecP_slide,
      List.head?_cons, List.getElem?_cons_zero, List.getElem?_cons_succ,
      h1Node, tagNode, pNode, twn_mapInl, truthy_decodeInl]

/-- parse_html_fields on a template-family document. -/
theorem parse_slideDoc (l : Option String) (t ll rl : List Inl)
    (L1 L2 L3 L4 L5 R1 R2 R3 R4 R5 u : Sec) (v s : String) (k : V91.FKey) :
    V91.parse_html_fields (slideDoc l t ll rl [L1, L2, L3, L4, L5] [R1, R2, R3, R4, R5] u v s) k
    = (if slideRaw t ll rl L1 L2 L3 L4 L5 R1 R2 R3 R4 R5 u k == "" then V91.DEFAULTS k
       else slideRaw t ll rl L1 L2 L3 L4 L5 R1 R2 R3 R4 R5 u k) := by
  rw [V91.parse_html_fields, rawFields_slideDoc]

/-! ## Write-step evaluation on the template family (variant B) -/

theorem wH1_slide (l : Option String) (t ll rl : List Inl)
    (L1 L2 L3 L4 L5 R1 R2 R3 R4 R5 u : Sec) (v s w : String) :
    V91.setTextSel sH1 w (slideDoc l t ll rl [L1, L2, L3, L4, L5] [R1, R2, R3, R4, R5] u v s)
    = slideDoc l (encodeI w) ll rl [L1, L2, L3, L4, L5] [R1, R2, R3, R4, R5] u v s := by
  simp [V91.setTextSel, updDoc, updNode, updList, stepChains, isHit, matchesS, sH1,
    slideDoc, h1Node, panelNode, secNode, sideLabelNode, tagNode, pNode, h3Node,
    userPanelNode, extraNode, langAttrs, updList_inl, brSafeChains, set_rich_text_eq_mapI]

theorem wLeftTag_slide (l : Option String) (t ll rl : List Inl)
    (L1 L2 L3 L4 L5 R1 R2 R3 R4 R5 u : Sec) (v s w : String) :
    V91.setTextSel sLeftTag w (slideDoc l t ll rl [L1, L2, L3, L4, L5] [R1, R2, R3, R4, R5] u v s)
    = slideDoc l t (encodeI w) rl [L1, L2, L3, L4, L5] [R1, R2, R3, R4, R5] u v s := by
  simp [V91.setTextSel, updDoc, updNode, updList, stepChains, isHit, matchesS, sLeftTag,
    slideDoc, h1Node, panelNode, secNode, sideLabelNode, tagNode, pNode, h3Node,
    userPanelNode, extraNode, langAttrs, updList_inl, brSafeChains, set_rich_text_eq_mapI]

theorem wRightTag_slide (l : Option String) (t ll rl : List Inl)
    (L1 L2 L3 L4 L5 R1 R2 R3 R4 R5 u : Sec) (v s w : String) :
    V91.setTextSel sRightTag w (slideDoc l t ll rl [L1, L2, L3, L4, L5] [R1, R2, R3, R4, R5] u v s)
    = slideDoc l t ll (encodeI w) [L1, L2, L3, L4, L5] [R1, R2, R3, R4, R5] u v s := by
  simp [V91.setTextSel, updDoc, updNode, updList, stepChains, isHit, matchesS, sRightTag,
    slideDoc, h1Node, panelNode, secNode, sideLabelNode, tagNode, pNode, h3Node,
    userPanelNode, extraNode, langAttrs, updList_inl, brSafeChains, set_rich_text_eq_mapI]

theorem wUser_slide (l : Option String) (t ll rl : List Inl)
    (L1 L2 L3 L4 L5 R1 R2 R3 R4 R5 u : Sec) (v s w : String) :
    V91.setTextSel sUserSecP w (slideDoc l t ll rl [L1, L2, L3, L4, L5] [R1, R2, R3, R4, R5] u v s)
    = slideDoc l t ll rl [L1, L2, L3, L4, L5] [R1, R2, R3, R4, R5] ⟨u.head, encodeI w⟩ v s := by
  simp [V91.setTextSel, updDoc, updNode, updList, stepChains, isHit, matchesS, sUserSecP,
    slideDoc, h1Node, panelNode, secNode, sideLabelNode, tagNode, pNode, h3Node,
    userPanelNode, extraNode, langAttrs, updList_inl, brSafeChains, set_rich_text_eq_mapI]

theorem wL0_slide (l : Option String) (t ll rl : List Inl)
    (L1 L2 L3 L4 L5 R1 R2 R3 R4 R5 u : Sec) (v s w : String) :
    V91.setSec sLeftSecP 0 w (slideDoc l t ll rl [L1, L2, L3, L4, L5] [R1, R2, R3, R4, R5] u v s)
    = slideDoc l t ll rl [⟨L1.head, encodeI w⟩, L2, L3, L4, L5] [R1, R2, R3, R4, R5] u v s := by
  simp [V91.setSec, updDoc, updNode, updList, stepChains, isHit, matchesS, sLeftSecP,
    slideDoc, h1Node, panelNode, secNode, sideLabelNode, tagNode, pNode, h3Node,
    userPanelNode, extraNode, langAttrs, updList_inl, brSafeChains, set_rich_text_eq_mapI]

theorem wL1_slide (l : Option String) (t ll rl : List Inl)
    (L1 L2 L3 L4 L5 R1 R2 R3 R4 R5 u : Sec) (v s w : String) :
    V91.setSec sLeftSecP 1 w (slideDoc l t ll rl [L1, L2, L3, L4, L5] [R1, R2, R3, R4, R5] u v s)
    = slideDoc l t ll rl [L1, ⟨L2.head, encodeI w⟩, L3, L4, L5] [R1, R2, R3, R4, R5] u v s := by
  simp [V91.setSec, updDoc, updNode, updList, stepChains, isHit, matchesS, sLeftSecP,
    slideDoc, h1Node, panelNode, secNode, sideLabelNode, tagNode, pNode, h3Node,
    userPanelNode, extraNode, langAttrs, updList_inl, brSafeChains, set_rich_text_eq_mapI]

theorem wL2_slide (l : Option String) (t ll rl : List Inl)
    (L1 L2 L3 L4 L5 R1 R2 R3 R4 R5 u : Sec) (v s w : String) :
    V91.setSec sLeftSecP 2 w (slideDoc l t ll rl [L1, L2, L3, L4, L5] [R1, R2, R3, R4, R5] u v s)
    = slideDoc l t ll rl [L1, L2, ⟨L3.head, encodeI w⟩, L4, L5] [R1, R2, R3, R4, R5] u v s := by
  simp [V91.setSec, updDoc, updNode, updList, stepChains, isHit, matchesS, sLeftSecP,
    slideDoc, h1Node, panelNode, secNode, sideLabelNode, tagNode, pNode, h3Node,
    userPanelNode, extraNode, langAttrs, updList_inl, brSafeChains, set_rich_text_eq_mapI]

theorem wL3_slide (l : Option String) (t ll rl : List Inl)
    (L1 L2 L3 L4 L5 R1 R2 R3 R4 R5 u : Sec) (v s w : String) :
    V91.setSec sLeftSecP 3 w (slideDoc l t ll rl [L1, L2, L3, L4, L5] [R1, R2, R3, R4, R5] u v s)
    = slideDoc l t ll rl [L1, L2, L3, ⟨L4.head, encodeI w⟩, L5] [R1, R2, R3, R4, R5] u v s := by
  simp [V91.setSec, updDoc, updNode, updList, stepChains, isHit, matchesS, sLeftSecP,
    slideDoc, h1Node, panelNode, secNode, sideLabelNode, tagNode, pNode, h3Node,
    userPanelNode, extraNode, langAttrs, updList_inl, brSafeChains, set_rich_text_eq_mapI]

theorem wL4_slide (l : Option String) (t ll rl : List Inl)
    (L1 L2 L3 L4 L5 R1 R2 R3 R4 R5 u : Sec) (v s w : String) :
    V91.setSec sLeftSecP 4 w (slideDoc l t ll rl [L1, L2, L3, L4, L5] [R1, R2, R3, R4, R5] u v s)
    = slideDoc l t ll rl [L1, L2, L3, L4, ⟨L5.head, encodeI w⟩] [R1, R2, R3, R4, R5] u v s := by
  simp [V91.setSec, updDoc, updNode, updList, stepChains, isHit, matchesS, sLeftSecP,
    slideDoc, h1Node, panelNode, secNode, sideLabelNode, tagNode, pNode, h3Node,
    userPanelNode, extraNode, langAttrs, updList_inl, brSafeChains, set_rich_text_eq_mapI]

theorem wR0_slide (l : Option String) (t ll rl : List Inl)
    (L1 L2 L3 L4 L5 R1 R2 R3 R4 R5 u : Sec) (v s w : String) :
    V91.setSec sRightSecP 0 w (slideDoc l t ll rl [L1, L2, L3, L4, L5] [R1, R2, R3, R4, R5] u v s)
    = slideDoc l t ll rl [L1, L2, L3, L4, L5] [⟨R1.head, encodeI w⟩, R2, R3, R4, R5] u v s := by
  simp [V91.setSec, updDoc, updNode, updList, stepChains, isHit, matchesS, sRightSecP,
    slideDoc, h1Node, panelNode, secNode, sideLabelNode, tagNode, pNode, h3Node,
    userPanelNode, extraNode, langAttrs, updList_inl, brSafeChains, set_rich_text_eq_mapI]

theorem wR1_slide (l : Option String) (t ll rl : List Inl)
    (L1 L2 L3 L4 L5 R1 R2 R3 R4 R5 u : Sec) (v s w : String) :
    V91.setSec sRightSecP 1 w (slideDoc l t ll rl [L1, L2, L3, L4, L5] [R1, R2, R3, R4, R5] u v s)
    = slideDoc l t ll rl [L1, L2, L3, L4, L5] [R1, ⟨R2.head, encodeI w⟩, R3, R4, R5] u v s := by
  simp [V91.setSec, updDoc, updNode, updList, stepChains, isHit, matchesS, sRightSecP,
    slideDoc, h1Node, panelNode, secNode, sideLabelNode, tagNode, pNode, h3Node,
    userPanelNode, extraNode, langAttrs, updList_inl, brSafeChains, set_rich_text_eq_mapI]

theorem wR2_slide (l : Option String) (t ll rl : List Inl)
    (L1 L2 L3 L4 L5 R1 R2 R3 R4 R5 u : Sec) (v s w : String) :
    V91.setSec sRightSecP 2 w (slideDoc l t ll rl [L1, L2, L3, L4, L5] [R1, R2, R3, R4, R5] u v s)
    = slideDoc l t ll rl [L1, L2, L3, L4, L5] [R1, R2, ⟨R3.head, encodeI w⟩, R4, R5] u v s := by
  simp [V91.setSec, updDoc, updNode, updList, stepChains, isHit, matchesS, sRightSecP,
    slideDoc, h1Node, panelNode, secNode, sideLabelNode, tagNode, pNode, h3Node,
    userPanelNode, extraNode, langAttrs, updList_inl, brSafeChains, set_rich_text_eq_mapI]

theorem wR3_slide (l : Option String) (t ll rl : List Inl)
    (L1 L2 L3 L4 L5 R1 R2 R3 R4 R5 u : Sec) (v s w : String) :
    V91.setSec sRightSecP 3 w (slideDoc l t ll rl [L1, L2, L3, L4, L5] [R1, R2, R3, R4, R5] u v s)
    = slideDoc l t ll rl [L1, L2, L3, L4, L5] [R1, R2, R3, ⟨R4.head, encodeI w⟩, R5] u v s := by
  simp [V91.setSec, updDoc, updNode, updList, stepChains, isHit, matchesS, sRightSecP,
    slideDoc, h1Node, panelNode, secNode, sideLabelNode, tagNode, pNode, h3Node,
    userPanelNode, extraNode, langAttrs, updList_inl, brSafeChains, set_rich_text_eq_mapI]

theorem wR4_slide (l : Option String) (t ll rl : List Inl)
    (L1 L2 L3 L4 L5 R1 R2 R3 R4 R5 u : Sec) (v s w : String) :
    V91.setSec sRightSecP 4 w (slideDoc l t ll rl [L1, L2, L3, L4, L5] [R1, R2, R3, R4, R5] u v s)
    = slideDoc l t ll rl [L1, L2, L3, L4, L5] [R1, R2, R3, R4, ⟨R5.head, encodeI w⟩] u v s := by
  simp [V91.setSec, updDoc, updNode, updList, stepChains, isHit, matchesS, sRightSecP,
    slideDoc, h1Node, panelNode, secNode, sideLabelNode, tagNode, pNode, h3Node,
    userPanelNode, extraNode, langAttrs, updList_inl, brSafeChains, set_rich_text_eq_mapI]

/-- The whole write phase on a template-family document. -/
theorem writeStep_slide (l : Option String) (t ll rl : List Inl)
    (L1 L2 L3 L4 L5 R1 R2 R3 R4 R5 u : Sec) (v s : String) (f : V91.FKey → String) :
    V91.writeStep f (slideDoc l t ll rl [L1, L2, L3, L4, L5] [R1, R2, R3, R4, R5] u v s)
    = slideDoc l (encodeI (f .title)) (encodeI (f .left_label)) (encodeI (f .right_label))
        [⟨L1.head, encodeI (f .left_people)⟩, ⟨L2.head, encodeI (f .left_process)⟩,
         ⟨L3.head, encodeI (f .left_technology)⟩, ⟨L4.head, encodeI (f .left_data)⟩,
         ⟨L5.head, encodeI (f .left_output)⟩]
        [⟨R1.head, encodeI (f .right_people)⟩, ⟨R2.head, encodeI (f .right_process)⟩,
         ⟨R3.head, encodeI (f .right_technology)⟩, ⟨R4.head, encodeI (f .right_data)⟩,
         ⟨R5.head, encodeI (f .right_output)⟩]
        ⟨u.head, encodeI (f .user_notes)⟩ v s := by
  rw [V91.writeStep]
  rw [wH1_slide, wLeftTag_slide, wRightTag_slide, wL0_slide, wL1_slide, wL2_slide,
    wL3_slide, wL4_slide, wR0_slide, wR1_slide, wR2_slide, wR3_slide, wR4_slide,
    wUser_slide]

/-! ## Remaining pipeline steps on the template family (variant B) -/

theorem hfsPanel : hasFooterSub "panel" = false := by rfl

theorem hfsLeft : hasFooterSub "left" = false := by rfl

theorem hfsRight : hasFooterSub "right" = false := by rfl

theorem hfsUser : hasFooterSub "user" = false := by rfl

theorem hfsSection : hasFooterSub "section" = false := by rfl

theorem hfsSide : hasFooterSub "side-label" = false := by rfl

theorem hfsTag : hasFooterSub "tag" = false := by rfl

theorem hfsExtra : hasFooterSub "extra" = false := by rfl

theorem langStep_none (d : HDoc) : V91.langStep none d = d := rfl

theorem langStep_nocode (x : String) (hx : (x == "sl" || x == "en") = false) (d : HDoc) :
    V91.langStep (some x) d = d := by
  simp [V91.langStep, hx]

theorem langStep_code_slide (l : Option String) (t ll rl : List Inl)
    (L1 L2 L3 L4 L5 R1 R2 R3 R4 R5 u : Sec) (v s : String)
    (x : String) (hx : (x == "sl" || x == "en") = true) :
    V91.langStep (some x) (slideDoc l t ll rl [L1, L2, L3, L4, L5] [R1, R2, R3, R4, R5] u v s)
    = slideDoc (some x) t ll rl [L1, L2, L3, L4, L5] [R1, R2, R3, R4, R5] u v s := by
  cases l <;>
    simp [V91.langStep, hx, slideDoc, setHtmlList, setHtmlNode, setAttr, langAttrs]

theorem trimPanelLeft_slide (l : Option String) (t ll rl : List Inl)
    (L1 L2 L3 L4 L5 R1 R2 R3 R4 R5 u : Sec) (v s : String) :
    V91.trimPanel sLeftSec (slideDoc l t ll rl [L1, L2, L3, L4, L5] [R1, R2, R3, R4, R5] u v s)
    = slideDoc l t ll rl [L1, L2, L3, L4, L5] [R1, R2, R3, R4, R5] u v s := by
  simp [V91.trimPanel, select_sLeftSec_slide]

theorem trimPanelRight_slide (l : Option String) (t ll rl : List Inl)
    (L1 L2 L3 L4 L5 R1 R2 R3 R4 R5 u : Sec) (v s : String) :
    V91.trimPanel sRightSec (slideDoc l t ll rl [L1, L2, L3, L4, L5] [R1, R2, R3, R4, R5] u v s)
    = slideDoc l t ll rl [L1, L2, L3, L4, L5] [R1, R2, R3, R4, R5] u v s := by
  simp [V91.trimPanel, select_sRightSec_slide]

theorem trimStep_slide (l : Option String) (t ll rl : List Inl)
    (L1 L2 L3 L4 L5 R1 R2 R3 R4 R5 u : Sec) (v s : String) :
    V91.trimStep (slideDoc l t ll rl [L1, L2, L3, L4, L5] [R1, R2, R3, R4, R5] u v s)
    = slideDoc l t ll rl [L1, L2, L3, L4, L5] [R1, R2, R3, R4, R5] u v s := by
  rw [V91.trimStep, trimPanelLeft_slide, trimPanelRight_slide]

theorem trimUserStep_slide (l : Option String) (t ll rl : List Inl)
    (L1 L2 L3 L4 L5 R1 R2 R3 R4 R5 u : Sec) (v s : String) :
    V91.trimUserStep (slideDoc l t ll rl [L1, L2, L3, L4, L5] [R1, R2, R3, R4, R5] u v s)
    = slideDoc l t ll rl [L1, L2, L3, L4, L5] [R1, R2, R3, R4, R5] u v s := by
  simp [V91.trimUserStep, select_sUserSec_slide]

theorem select_sLeftSecH3_slide (l : Option String) (t ll rl : List Inl)
    (L1 L2 L3 L4 L5 R1 R2 R3 R4 R5 u : Sec) (v s : String) :
    select sLeftSecH3 (slideDoc l t ll rl [L1, L2, L3, L4, L5] [R1, R2, R3, R4, R5] u v s)
    = [h3Node L1.head, h3Node L2.head, h3Node L3.head, h3Node L4.head, h3Node L5.head] := by
  simp [select, slideDoc, selNode, selList, stepChains, isHit, matchesS, sLeftSecH3,
    h1Node, panelNode, secNode, sideLabelNode, tagNode, pNode, h3Node,
    userPanelNode, extraNode, langAttrs, selList_inl, brSafeChains]

theorem select_sRightSecH3_slide (l : Option String) (t ll rl : List Inl)
    (L1 L2 L3 L4 L5 R1 R2 R3 R4 R5 u : Sec) (v s : String) :
    select sRightSecH3 (slideDoc l t ll rl [L1, L2, L3, L4, L5] [R1, R2, R3, R4, R5] u v s)
    = [h3Node R1.head, h3Node R2.head, h3Node R3.head, h3Node R4.head, h3Node R5.head] := by
  simp [select, slideDoc, selNode, selList, stepChains, isHit, matchesS, sRightSecH3,
    h1Node, panelNode, secNode, sideLabelNode, tagNode, pNode, h3Node,
    userPanelNode, extraNode, langAttrs, selList_inl, brSafeChains]

theorem setHeadAtL0_slide (l : Option String) (t ll rl : List Inl)
    (L1 L2 L3 L4 L5 R1 R2 R3 R4 R5 u : Sec) (v s : String)
    (txt : String) (he : encodeI txt = [Inl.txt txt]) :
    V91.setHeadAt sLeftSecH3 0 txt
      (slideDoc l t ll rl [L1, L2, L3, L4, L5] [R1, R2, R3, R4, R5] u v s)
    = slideDoc l t ll rl [⟨txt, L1.ps⟩, L2, L3, L4, L5] [R1, R2, R3, R4, R5] u v s := by
  simp only [V91.setHeadAt, select_sLeftSecH3_slide, List.getElem?_cons_zero,
    List.getElem?_cons_succ]
  simp [nodeTruthy, h3Node, updDoc, updNode,
    updList, stepChains, isHit, matchesS, sLeftSecH3, slideDoc, h1Node, panelNode,
    secNode, sideLabelNode, tagNode, pNode, userPanelNode, extraNode, langAttrs,
    updList_inl, brSafeChains, set_rich_text_eq_mapI, he, inlNode]

theorem setHeadAtL1_slide (l : Option String) (t ll rl : List Inl)
    (L1 L2 L3 L4 L5 R1 R2 R3 R4 R5 u : Sec) (v s : String)
    (txt : String) (he : encodeI txt = [Inl.txt txt]) :
    V91.setHeadAt sLeftSecH3 1 txt
      (slideDoc l t ll rl [L1, L2, L3, L4, L5] [R1, R2, R3, R4, R5] u v s)
    = slideDoc l t ll rl [L1, ⟨txt, L2.ps⟩, L3, L4, L5] [R1, R2, R3, R4, R5] u v s := by
  simp only [V91.setHeadAt, select_sLeftSecH3_slide, List.getElem?_cons_zero,
    List.getElem?_cons_succ]
  simp [nodeTruthy, h3Node, updDoc, updNode,
    updList, stepChains, isHit, matchesS, sLeftSecH3, slideDoc, h1Node, panelNode,
    secNode, sideLabelNode, tagNode, pNode, userPanelNode, extraNode, langAttrs,
    updList_inl, brSafeChains, set_rich_text_eq_mapI, he, inlNode]

theorem setHeadAtL2_slide (l : Option String) (t ll rl : List Inl)
    (L1 L2 L3 L4 L5 R1 R2 R3 R4 R5 u : Sec) (v s : String)
    (txt : String) (he : encodeI txt = [Inl.txt txt]) :
    V91.setHeadAt sLeftSecH3 2 txt
      (slideDoc l t ll rl [L1, L2, L3, L4, L5] [R1, R2, R3, R4, R5] u v s)
    = slideDoc l t ll rl [L1, L2, ⟨txt, L3.ps⟩, L4, L5] [R1, R2, R3, R4, R5] u v s := by
  simp only [V91.setHeadAt, select_sLeftSecH3_slide, List.getElem?_cons_zero,
    List.getElem?_cons_succ]
  simp [nodeTruthy, h3Node, updDoc, updNode,
    updList, stepChains, isHit, matchesS, sLeftSecH3, slideDoc, h1Node, panelNode,
    secNode, sideLabelNode, tagNode, pNode, userPanelNode, extraNode, langAttrs,
    updList_inl, brSafeChains, set_rich_text_eq_mapI, he, inlNode]

theorem setHeadAtL3_slide (l : Option String) (t ll rl : List Inl)
    (L1 L2 L3 L4 L5 R1 R2 R3 R4 R5 u : Sec) (v s : String)
    (txt : String) (he : encodeI txt = [Inl.txt txt]) :
    V91.setHeadAt sLeftSecH3 3 txt
      (slideDoc l t ll rl [L1, L2, L3, L4, L5] [R1, R2, R3, R4, R5] u v s)
    = slideDoc l t ll rl [L1, L2, L3, ⟨txt, L4.ps⟩, L5] [R1, R2, R3, R4, R5] u v s := by
  simp only [V91.setHeadAt, select_sLeftSecH3_slide, List.getElem?_cons_zero,
    List.getElem?_cons_succ]
  simp [nodeTruthy, h3Node, updDoc, updNode,
    updList, stepChains, isHit, matchesS, sLeftSecH3, slideDoc, h1Node, panelNode,
    secNode, sideLabelNode, tagNode, pNode, userPanelNode, extraNode, langAttrs,
    updList_inl, brSafeChains, set_rich_text_eq_mapI, he, inlNode]

theorem setHeadAtL4_slide (l : Option String) (t ll rl : List Inl)
    (L1 L2 L3 L4 L5 R1 R2 R3 R4 R5 u : Sec) (v s : String)
    (txt : String) (he : encodeI txt = [Inl.txt txt]) :
    V91.setHeadAt sLeftSecH3 4 txt
      (slideDoc l t ll rl [L1, L2, L3, L4, L5] [R1, R2, R3, R4, R5] u v s)
    = slideDoc l t ll rl [L1, L2, L3, L4, ⟨txt, L5.ps⟩] [R1, R2, R3, R4, R5] u v s := by
  simp only [V91.setHeadAt, select_sLeftSecH3_slide, List.getElem?_cons_zero,
    List.getElem?_cons_succ]
  simp [nodeTruthy, h3Node, updDoc, updNode,
    updList, stepChains, isHit, matchesS, sLeftSecH3, slideDoc, h1Node, panelNode,
    secNode, sideLabelNode, tagNode, pNode, userPanelNode, extraNode, langAttrs,
    updList_inl, brSafeChains, set_rich_text_eq_mapI, he, inlNode]

theorem setHeadAtR0_slide (l : Option String) (t ll rl : List Inl)
    (L1 L2 L3 L4 L5 R1 R2 R3 R4 R5 u : Sec) (v s : String)
    (txt : String) (he : encodeI txt = [Inl.txt txt]) :
    V91.setHeadAt sRightSecH3 0 txt
      (slideDoc l t ll rl [L1, L2, L3, L4, L5] [R1, R2, R3, R4, R5] u v s)
    = slideDoc l t ll rl [L1, L2, L3, L4, L5] [⟨txt, R1.ps⟩, R2, R3, R4, R5] u v s := by
  simp only [V91.setHeadAt, select_sRightSecH3_slide, List.getElem?_cons_zero,
    List.getElem?_cons_succ]
  simp [nodeTruthy, h3Node, updDoc, updNode,
    updList, stepChains, isHit, matchesS, sRightSecH3, slideDoc, h1Node, panelNode,
    secNode, sideLabelNode, tagNode, pNode, userPanelNode, extraNode, langAttrs,
    updList_inl, brSafeChains, set_rich_text_eq_mapI, he, inlNode]

theorem setHeadAtR1_slide (l : Option String) (t ll rl : List Inl)
    (L1 L2 L3 L4 L5 R1 R2 R3 R4 R5 u : Sec) (v s : String)
    (txt : String) (he : encodeI txt = [Inl.txt txt]) :
    V91.setHeadAt sRightSecH3 1 txt
      (slideDoc l t ll rl [L1, L2, L3, L4, L5] [R1, R2, R3, R4, R5] u v s)
    = slideDoc l t ll rl [L1, L2, L3, L4, L5] [R1, ⟨txt, R2.ps⟩, R3, R4, R5] u v s := by
  simp only [V91.setHeadAt, select_sRightSecH3_slide, List.getElem?_cons_zero,
    List.getElem?_cons_succ]
  simp [nodeTruthy, h3Node, updDoc, updNode,
    updList, stepChains, isHit, matchesS, sRightSecH3, slideDoc, h1Node, panelNode,
    secNode, sideLabelNode, tagNode, pNode, userPanelNode, extraNode, langAttrs,
    updList_inl, brSafeChains, set_rich_text_eq_mapI, he, inlNode]

theorem setHeadAtR2_slide (l : Option String) (t ll rl : List Inl)
    (L1 L2 L3 L4 L5 R1 R2 R3 R4 R5 u : Sec) (v s : String)
    (txt : String) (he : encodeI txt = [Inl.txt txt]) :
    V91.setHeadAt sRightSecH3 2 txt
      (slideDoc l t ll rl [L1, L2, L3, L4, L5] [R1, R2, R3, R4, R5] u v s)
    = slideDoc l t ll rl [L1, L2, L3, L4, L5] [R1, R2, ⟨txt, R3.ps⟩, R4, R5] u v s := by
  simp only [V91.setHeadAt, select_sRightSecH3_slide, List.getElem?_cons_zero,
    List.getElem?_cons_succ]
  simp [nodeTruthy, h3Node, updDoc, updNode,
    updList, stepChains, isHit, matchesS, sRightSecH3, slideDoc, h1Node, panelNode,
    secNode, sideLabelNode, tagNode, pNode, userPanelNode, extraNode, langAttrs,
    updList_inl, brSafeChains, set_rich_text_eq_mapI, he, inlNode]

theorem setHeadAtR3_slide (l : Option String) (t ll rl : List Inl)
    (L1 L2 L3 L4 L5 R1 R2 R3 R4 R5 u : Sec) (v s : String)
    (txt : String) (he : encodeI txt = [Inl.txt txt]) :
    V91.setHeadAt sRightSecH3 3 txt
      (slideDoc l t ll rl [L1, L2, L3, L4, L5] [R1, R2, R3, R4, R5] u v s)
    = slideDoc l t ll rl [L1, L2, L3, L4, L5] [R1, R2, R3, ⟨txt, R4.ps⟩, R5] u v s := by
  simp only [V91.setHeadAt, select_sRightSecH3_slide, List.getElem?_cons_zero,
    List.getElem?_cons_succ]
  simp [nodeTruthy, h3Node, updDoc, updNode,
    updList, stepChains, isHit, matchesS, sRightSecH3, slideDoc, h1Node, panelNode,
    secNode, sideLabelNode, tagNode, pNode, userPanelNode, extraNode, langAttrs,
    updList_inl, brSafeChains, set_rich_text_eq_mapI, he, inlNode]

theorem setHeadAtR4_slide (l : Option String) (t ll rl : List Inl)
    (L1 L2 L3 L4 L5 R1 R2 R3 R4 R5 u : Sec) (v s : String)
    (txt : String) (he : encodeI txt = [Inl.txt txt]) :
    V91.setHeadAt sRightSecH3 4 txt
      (slideDoc l t ll rl [L1, L2, L3, L4, L5] [R1, R2, R3, R4, R5] u v s)
    = slideDoc l t ll rl [L1, L2, L3, L4, L5] [R1, R2, R3, R4, ⟨txt, R5.ps⟩] u v s := by
  simp only [V91.setHeadAt, select_sRightSecH3_slide, List.getElem?_cons_zero,
    List.getElem?_cons_succ]
  simp [nodeTruthy, h3Node, updDoc, updNode,
    updList, stepChains, isHit, matchesS, sRightSecH3, slideDoc, h1Node, panelNode,
    secNode, sideLabelNode, tagNode, pNode, userPanelNode, extraNode, langAttrs,
    updList_inl, brSafeChains, set_rich_text_eq_mapI, he, inlNode]

theorem headStep_none (d : HDoc) : V91.headStep none d = d := rfl

theorem headStep_nocode (x : String) (hx1 : (x == "sl") = false)
    (hx2 : (x == "en") = false) (d : HDoc) :
    V91.headStep (some x) d = d := by
  simp [V91.headStep, V91.STATIC_LABELS, hx1, hx2]

theorem headStep_sl_slide (l : Option String) (t ll rl : List Inl)
    (L1 L2 L3 L4 L5 R1 R2 R3 R4 R5 u : Sec) (v s : String) :
    V91.headStep (some "sl")
      (slideDoc l t ll rl [L1, L2, L3, L4, L5] [R1, R2, R3, R4, R5] u v s)
    = slideDoc l t ll rl
        [⟨"Ljudje:", L1.ps⟩, ⟨"Proces:", L2.ps⟩, ⟨"Tehnologija:", L3.ps⟩,
         ⟨"Podatki:", L4.ps⟩, ⟨"Output:", L5.ps⟩]
        [⟨"Ljudje:", R1.ps⟩, ⟨"Proces:", R2.ps⟩, ⟨"Tehnologija:", R3.ps⟩,
         ⟨"Podatki:", R4.ps⟩, ⟨"Output:", R5.ps⟩] u v s := by
  rw [V91.headStep]
  simp only [V91.STATIC_LABELS, List.getElem?_cons_zero, List.getElem?_cons_succ,
    beq_self_eq_true, if_true, reduceIte]
  rw [setHeadAtL0_slide, setHeadAtR0_slide, setHeadAtL1_slide, setHeadAtR1_slide,
    setHeadAtL2_slide, setHeadAtR2_slide, setHeadAtL3_slide, setHeadAtR3_slide,
    setHeadAtL4_slide, setHeadAtR4_slide] <;> rfl

theorem headStep_en_slide (l : Option String) (t ll rl : List Inl)
    (L1 L2 L3 L4 L5 R1 R2 R3 R4 R5 u : Sec) (v s : String) :
    V91.headStep (some "en")
      (slideDoc l t ll rl [L1, L2, L3, L4, L5] [R1, R2, R3, R4, R5] u v s)
    = slideDoc l t ll rl
        [⟨"People:", L1.ps⟩, ⟨"Process:", L2.ps⟩, ⟨"Technology:", L3.ps⟩,
         ⟨"Data:", L4.ps⟩, ⟨"Output:", L5.ps⟩]
        [⟨"People:", R1.ps⟩, ⟨"Process:", R2.ps⟩, ⟨"Technology:", R3.ps⟩,
         ⟨"Data:", R4.ps⟩, ⟨"Output:", R5.ps⟩] u v s := by
  rw [V91.headStep]
  simp only [V91.STATIC_LABELS, List.getElem?_cons_zero, List.getElem?_cons_succ,
    show ("en" == "sl") = false from rfl, beq_self_eq_true, Bool.false_eq_true,
    if_false, if_true, reduceIte]
  rw [setHeadAtL0_slide, setHeadAtR0_slide, setHeadAtL1_slide, setHeadAtR1_slide,
    setHeadAtL2_slide, setHeadAtR2_slide, setHeadAtL3_slide, setHeadAtR3_slide,
    setHeadAtL4_slide, setHeadAtR4_slide] <;> rfl

theorem footerStep_slide (l : Option String) (t ll rl : List Inl)
    (L1 L2 L3 L4 L5 R1 R2 R3 R4 R5 u : Sec) (v s : String) :
    V91.footerStep (slideDoc l t ll rl [L1, L2, L3, L4, L5] [R1, R2, R3, R4, R5] u v s)
    = slideDoc l t ll rl [L1, L2, L3, L4, L5] [R1, R2, R3, R4, R5] u v s := by
  cases l <;>
  simp [V91.footerStep, V91.footerBasicSSels, V91.idFooterPred, V91.classFooterPred,
    removeDoc, removeNode, removeList, removeList_inl, matchesS, slideDoc,
    h1Node, panelNode, secNode, sideLabelNode, tagNode, pNode, h3Node,
    userPanelNode, extraNode, langAttrs,
    hfsPanel, hfsLeft, hfsRight, hfsUser, hfsSection, hfsSide, hfsTag, hfsExtra]

theorem moveUserStep_slide (l : Option String) (t ll rl : List Inl)
    (L1 L2 L3 L4 L5 R1 R2 R3 R4 R5 u : Sec) (v s : String) :
    V91.moveUserStep (slideDoc l t ll rl [L1, L2, L3, L4, L5] [R1, R2, R3, R4, R5] u v s)
    = slideDoc l t ll rl [L1, L2, L3, L4, L5] [R1, R2, R3, R4, R5] u v s := by
  simp [V91.moveUserStep, selectOne, select, slideDoc, selNode, selList, stepChains,
    isHit, matchesS, sUserPanel, moveDoc, moveNode, moveList, moveList_inl,
    h1Node, panelNode, secNode, sideLabelNode, tagNode, pNode, h3Node,
    userPanelNode, extraNode, langAttrs, selList_inl, brSafeChains, nodeTruthy]

/-! ## Closure of the template family under the variant B synthesizer -/

/-- Synthesis with no target label language on a template-family document:
the slots are replaced by the encoded field values, everything else
(language, headings, the extra element with its custom attribute, the
user-panel position) stays as it was. -/
theorem apply91_slide_none (l : Option String) (t ll rl : List Inl)
    (L1 L2 L3 L4 L5 R1 R2 R3 R4 R5 u : Sec) (v s : String) (f : V91.FKey → String) :
    V91.apply_fields_to_html
      (slideDoc l t ll rl [L1, L2, L3, L4, L5] [R1, R2, R3, R4, R5] u v s) f none
    = slideDoc l (encodeI (f .title)) (encodeI (f .left_label)) (encodeI (f .right_label))
        [⟨L1.head, encodeI (f .left_people)⟩, ⟨L2.head, encodeI (f .left_process)⟩,
         ⟨L3.head, encodeI (f .left_technology)⟩, ⟨L4.head, encodeI (f .left_data)⟩,
         ⟨L5.head, encodeI (f .left_output)⟩]
        [⟨R1.head, encodeI (f .right_people)⟩, ⟨R2.head, encodeI (f .right_process)⟩,
         ⟨R3.head, encodeI (f .right_technology)⟩, ⟨R4.head, encodeI (f .right_data)⟩,
         ⟨R5.head, encodeI (f .right_output)⟩]
        ⟨u.head, encodeI (f .user_notes)⟩ v s := by
  rw [V91.apply_fields_to_html, langStep_none, trimStep_slide, trimUserStep_slide,
    writeStep_slide, headStep_none, footerStep_slide, moveUserStep_slide]

/-- Synthesis with target label language sl on a template-family document. -/
theorem apply91_slide_sl (l : Option String) (t ll rl : List Inl)
    (L1 L2 L3 L4 L5 R1 R2 R3 R4 R5 u : Sec) (v s : String) (f : V91.FKey → String) :
    V91.apply_fields_to_html
      (slideDoc l t ll rl [L1, L2, L3, L4, L5] [R1, R2, R3, R4, R5] u v s) f (some "sl")
    = slideDoc (some "sl") (encodeI (f .title)) (encodeI (f .left_label))
        (encodeI (f .right_label))
        [⟨"Ljudje:", encodeI (f .left_people)⟩, ⟨"Proces:", encodeI (f .left_process)⟩,
         ⟨"Tehnologija:", encodeI (f .left_technology)⟩,
         ⟨"Podatki:", encodeI (f .left_data)⟩, ⟨"Output:", encodeI (f .left_output)⟩]
        [⟨"Ljudje:", encodeI (f .right_people)⟩, ⟨"Proces:", encodeI (f .right_process)⟩,
         ⟨"Tehnologija:", encodeI (f .right_technology)⟩,
         ⟨"Podatki:", encodeI (f .right_data)⟩, ⟨"Output:", encodeI (f .right_output)⟩]
        ⟨u.head, encodeI (f .user_notes)⟩ v s := by
  rw [V91.apply_fields_to_html, langStep_code_slide _ _ _ _ _ _ _ _ _ _ _ _ _ _ _ _ _ "sl" rfl,
    trimStep_slide, trimUserStep_slide, writeStep_slide, headStep_sl_slide,
    footerStep_slide, moveUserStep_slide]

/-- Synthesis with target label language en on a template-family document. -/
theorem apply91_slide_en (l : Option String) (t ll rl : List Inl)
    (L1 L2 L3 L4 L5 R1 R2 R3 R4 R5 u : Sec) (v s : String) (f : V91.FKey → String) :
    V91.apply_fields_to_html
      (slideDoc l t ll rl [L1, L2, L3, L4, L5] [R1, R2, R3, R4, R5] u v s) f (some "en")
    = slideDoc (some "en") (encodeI (f .title)) (encodeI (f .left_label))
        (encodeI (f .right_label))
        [⟨"People:", encodeI (f .left_people)⟩, ⟨"Process:", encodeI (f .left_process)⟩,
         ⟨"Technology:", encodeI (f .left_technology)⟩,
         ⟨"Data:", encodeI (f .left_data)⟩, ⟨"Output:", encodeI (f .left_output)⟩]
        [⟨"People:", encodeI (f .right_people)⟩, ⟨"Process:", encodeI (f .right_process)⟩,
         ⟨"Technology:", encodeI (f .right_technology)⟩,
         ⟨"Data:", encodeI (f .right_data)⟩, ⟨"Output:", encodeI (f .right_output)⟩]
        ⟨u.head, encodeI (f .user_notes)⟩ v s := by
  rw [V91.apply_fields_to_html, langStep_code_slide _ _ _ _ _ _ _ _ _ _ _ _ _ _ _ _ _ "en" rfl,
    trimStep_slide, trimUserStep_slide, writeStep_slide, headStep_en_slide,
    footerStep_slide, moveUserStep_slide]

/-- Synthesis with an unsupported target label language behaves like no
language at all. -/
theorem apply91_slide_other (l : Option String) (t ll rl : List Inl)
    (L1 L2 L3 L4 L5 R1 R2 R3 R4 R5 u : Sec) (v s : String) (f : V91.FKey → String)
    (x : String) (hx1 : (x == "sl") = false) (hx2 : (x == "en") = false) :
    V91.apply_fields_to_html
      (slideDoc l t ll rl [L1, L2, L3, L4, L5] [R1, R2, R3, R4, R5] u v s) f (some x)
    = slideDoc l (encodeI (f .title)) (encodeI (f .left_label)) (encodeI (f .right_label))
        [⟨L1.head, encodeI (f .left_people)⟩, ⟨L2.head, encodeI (f .left_process)⟩,
         ⟨L3.head, encodeI (f .left_technology)⟩, ⟨L4.head, encodeI (f .left_data)⟩,
         ⟨L5.head, encodeI (f .left_output)⟩]
        [⟨R1.head, encodeI (f .right_people)⟩, ⟨R2.head, encodeI (f .right_process)⟩,
         ⟨R3.head, encodeI (f .right_technology)⟩, ⟨R4.head, encodeI (f .right_data)⟩,
         ⟨R5.head, encodeI (f .right_output)⟩]
        ⟨u.head, encodeI (f .user_notes)⟩ v s := by
  rw [V91.apply_fields_to_html,
    langStep_nocode x (by rw [hx1, hx2]; rfl),
    trimStep_slide, trimUserStep_slide, writeStep_slide,
    headStep_nocode x hx1 hx2, footerStep_slide, moveUserStep_slide]

/-! ## C1: round-trip identity -/

theorem DEFAULTS91_no_cr (k : V91.FKey) : '\r' ∉ (V91.DEFAULTS k).data := by
  cases k <;> decide

theorem decodeInl_no_cr (ps : List Inl) : '\r' ∉ (decodeInl ps).data :=
  normStr_no_cr _

theorem normStr_ite (c : Prop) [Decidable c] (d r : String)
    (hd : '\r' ∉ d.data) (hr : '\r' ∉ r.data) :
    normStr (if c then d else r) = if c then d else r := by
  split
  · exact normStr_of_no_cr _ hd
  · exact normStr_of_no_cr _ hr

theorem ite_default_stable (d r : String) :
    (if ((if (r == "") = true then d else r) == "") = true then d
     else if (r == "") = true then d else r)
    = if (r == "") = true then d else r := by
  by_cases h : (r == "") = true
  · simp [h]
  · simp [h]

/-- C1: extracting, synthesizing with the unchanged field map and no target
label language, and extracting again reproduces the extracted field map
exactly, for every document of the template family (arbitrary language
declaration, title, labels, headings, multi-line slot content, custom
attribute value and unrelated extra sibling) and every field. -/
theorem claim_C1 (l : Option String) (t ll rl : List Inl)
    (L1 L2 L3 L4 L5 R1 R2 R3 R4 R5 u : Sec) (v s : String) (k : V91.FKey) :
    V91.parse_html_fields
      (V91.apply_fields_to_html
        (slideDoc l t ll rl [L1, L2, L3, L4, L5] [R1, R2, R3, R4, R5] u v s)
        (V91.parse_html_fields
          (slideDoc l t ll rl [L1, L2, L3, L4, L5] [R1, R2, R3, R4, R5] u v s))
        none) k
    = V91.parse_html_fields
        (slideDoc l t ll rl [L1, L2, L3, L4, L5] [R1, R2, R3, R4, R5] u v s) k := by
  rw [apply91_slide_none]
  simp only [parse_slideDoc]
  cases k <;>
    (simp only [slideRaw, decodeInl_encodeI]
     rw [normStr_ite _ _ _ (DEFAULTS91_no_cr _) (decodeInl_no_cr _)]
     exact ite_default_stable _ _)

/-! ## C2: outside-field preservation -/

theorem cList_inl (p : String → List String → List (String × String) → Bool)
    (il : List Inl) (hbr : p "br" [] [] = false) :
    cList p (List.map inlNode il) = 0 := by
  induction il with
  | nil => rfl
  | cons i r ih =>
    cases i with
    | txt s2 => simpa [cList, cNode, inlNode] using ih
    | br =>
      simp only [List.map_cons, cList, cNode, inlNode, brNode, hbr,
        Bool.false_eq_true, if_false]
      simpa [cList] using ih

/-- Trimming the six-section left panel of the concrete document removes
the marked sixth section and yields a five-section template document. -/
theorem trimPanelLeft_c2doc :
    V91.trimPanel sLeftSec c2doc
    = slideDoc none [.txt "T"] [.txt "L"] [.txt "R"]
        [⟨"a", [.txt "1"]⟩, ⟨"b", [.txt "2"]⟩, ⟨"c", [.txt "3"]⟩,
         ⟨"d", [.txt "4"]⟩, ⟨"e", [.txt "5"]⟩]
        [⟨"a", [.txt "1"]⟩, ⟨"b", [.txt "2"]⟩, ⟨"c", [.txt "3"]⟩,
         ⟨"d", [.txt "4"]⟩, ⟨"e", [.txt "5"]⟩]
        ⟨"User notes", [.txt "n"]⟩ "V" "S" := by
  simp [V91.trimPanel, select, selNode, selList, stepChains, isHit, matchesS,
    dropDoc, dropNode, dropList, c2doc, markedSec, secNode, h3Node, pNode, inlNode,
    sLeftSec, slideDoc, h1Node, panelNode, sideLabelNode, tagNode, userPanelNode,
    extraNode, langAttrs]

/-- C2 counterexample: the marked sixth left section of c2doc is an element
outside the recognized slots (and no footer landmark, heading or notes
panel), present once in the base document; synthesizing with no target
language and an unmodified field map removes it, so it is not preserved in
the output at all, let alone byte-identically. -/
theorem claim_C2_cex :
    countDoc (fun _t _cl a => a.lookup "data-mark" == some "z") c2doc = 1 ∧
      countDoc (fun _t _cl a => a.lookup "data-mark" == some "z")
        (V91.apply_fields_to_html c2doc (fun _ => "x") none) = 0 := by
  constructor
  · rfl
  · rw [V91.apply_fields_to_html, langStep_none, V91.trimStep, trimPanelLeft_c2doc,
      trimPanelRight_slide, trimUserStep_slide, writeStep_slide, headStep_none,
      footerStep_slide, moveUserStep_slide]
    simp [countDoc, cNode, cList, slideDoc, h1Node, panelNode, secNode,
      sideLabelNode, tagNode, pNode, h3Node, userPanelNode, extraNode, langAttrs,
      cList_inl, inlNode, List.lookup]

/-- C2 (amended): synthesizing with no target label language over a
template-family document changes only the contents of the recognized slots
(title, side labels, the five positional sections per panel, the notes
paragraph), which become the encoded field values; every element outside
those slots -- the language attribute, the heading texts, the extra
unrelated sibling with its custom attribute value and text, and the
positions of all blocks -- is reproduced identically in the output tree.
The claim as frozen fails because the synthesizer also deletes structural
surplus (sections beyond the fifth, extra notes sections) and footer
landmarks, and repositions the notes panel; and byte-for-byte identity of
the serialized output additionally holds only up to the serializer's
normalization of markup it re-emits. -/
theorem claim_C2 (l : Option String) (t ll rl : List Inl)
    (L1 L2 L3 L4 L5 R1 R2 R3 R4 R5 u : Sec) (v s : String) (f : V91.FKey → String) :
    V91.apply_fields_to_html
      (slideDoc l t ll rl [L1, L2, L3, L4, L5] [R1, R2, R3, R4, R5] u v s) f none
    = slideDoc l (encodeI (f .title)) (encodeI (f .left_label)) (encodeI (f .right_label))
        [⟨L1.head, encodeI (f .left_people)⟩, ⟨L2.head, encodeI (f .left_process)⟩,
         ⟨L3.head, encodeI (f .left_technology)⟩, ⟨L4.head, encodeI (f .left_data)⟩,
         ⟨L5.head, encodeI (f .left_output)⟩]
        [⟨R1.head, encodeI (f .right_people)⟩, ⟨R2.head, encodeI (f .right_process)⟩,
         ⟨R3.head, encodeI (f .right_technology)⟩, ⟨R4.head, encodeI (f .right_data)⟩,
         ⟨R5.head, encodeI (f .right_output)⟩]
        ⟨u.head, encodeI (f .user_notes)⟩ v s :=
  apply91_slide_none l t ll rl L1 L2 L3 L4 L5 R1 R2 R3 R4 R5 u v s f

/-! ## C7: heading translation -/

/-- C7: synthesizing a template-family document (with any or no declared
language, and arbitrary original heading texts) with target label language
sl or en sets the root language attribute to that code and overwrites all
ten section headings -- both panels, all five positions -- with that
language's fixed vocabulary strings, regardless of the headings originally
present. -/
theorem claim_C7 (l : Option String) (t ll rl : List Inl)
    (L1 L2 L3 L4 L5 R1 R2 R3 R4 R5 u : Sec) (v s : String) (f : V91.FKey → String) :
    (docLang (V91.apply_fields_to_html
        (slideDoc l t ll rl [L1, L2, L3, L4, L5] [R1, R2, R3, R4, R5] u v s) f (some "sl"))
      = some "sl"
     ∧ select sLeftSecH3 (V91.apply_fields_to_html
        (slideDoc l t ll rl [L1, L2, L3, L4, L5] [R1, R2, R3, R4, R5] u v s) f (some "sl"))
      = [h3Node "Ljudje:", h3Node "Proces:", h3Node "Tehnologija:",
         h3Node "Podatki:", h3Node "Output:"]
     ∧ select sRightSecH3 (V91.apply_fields_to_html
        (slideDoc l t ll rl [L1, L2, L3, L4, L5] [R1, R2, R3, R4, R5] u v s) f (some "sl"))
      = [h3Node "Ljudje:", h3Node "Proces:", h3Node "Tehnologija:",
         h3Node "Podatki:", h3Node "Output:"])
    ∧ (docLang (V91.apply_fields_to_html
        (slideDoc l t ll rl [L1, L2, L3, L4, L5] [R1, R2, R3, R4, R5] u v s) f (some "en"))
      = some "en"
     ∧ select sLeftSecH3 (V91.apply_fields_to_html
        (slideDoc l t ll rl [L1, L2, L3, L4, L5] [R1, R2, R3, R4, R5] u v s) f (some "en"))
      = [h3Node "People:", h3Node "Process:", h3Node "Technology:",
         h3Node "Data:", h3Node "Output:"]
     ∧ select sRightSecH3 (V91.apply_fields_to_html
        (slideDoc l t ll rl [L1, L2, L3, L4, L5] [R1, R2, R3, R4, R5] u v s) f (some "en"))
      = [h3Node "People:", h3Node "Process:", h3Node "Technology:",
         h3Node "Data:", h3Node "Output:"]) := by
  rw [apply91_slide_sl, apply91_slide_en]
  refine ⟨⟨?_, ?_, ?_⟩, ⟨?_, ?_, ?_⟩⟩
  · simp [docLang, findHtmlList, findHtmlNode, slideDoc, langAttrs, List.lookup]
  · rw [select_sLeftSecH3_slide]
  · rw [select_sRightSecH3_slide]
  · simp [docLang, findHtmlList, findHtmlNode, slideDoc, langAttrs, List.lookup]
  · rw [select_sLeftSecH3_slide]
  · rw [select_sRightSecH3_slide]

/-! ## C4: default substitution -/

theorem getTextSel_empty (c : List SSel) (d : HDoc)
    (h : (select c d).isEmpty = true) : V91.getTextSel c d = "" := by
  cases hsel : select c d with
  | nil => rw [V91.getTextSel, selectOne, hsel]; rfl
  | cons a as => rw [hsel] at h; exact absurd h (by simp)

theorem secVal_none (idx : Nat) (arr : List Node)
    (h : (arr[idx]?).isNone = true) : V91.secVal idx arr = "" := by
  rw [V91.secVal]
  cases he : arr[idx]? with
  | none => rfl
  | some el => rw [he] at h; exact absurd h (by simp)

theorem userRaw_empty (d : HDoc) (h : (select sUserSecP d).isEmpty = true) :
    V91.rawFields d .user_notes = "" := by
  cases hsel : select sUserSecP d with
  | nil => rw [V91.rawFields, selectOne, hsel]; rfl
  | cons a as => rw [hsel] at h; exact absurd h (by simp)

/-- C4 counterexample: in variant B the schema default of the user_notes
field is the empty string, so extracting from a document with no notes
slot maps user_notes to the empty string -- the field is mapped to its
schema default, but the default is not a visibly meaningful non-empty
placeholder as the claim asserts for every field. -/
theorem claim_C4_cex :
    slotMissing (⟨[]⟩ : HDoc) V91.FKey.user_notes = true ∧
      V91.parse_html_fields (⟨[]⟩ : HDoc) V91.FKey.user_notes = "" ∧
      V91.DEFAULTS V91.FKey.user_notes = "" :=
  ⟨rfl, rfl, rfl⟩

/-- C4 (amended): for every document and schema field, if the field's
structural slot is absent or its text extracts to the empty string, the
extraction maps the field to its schema default; for every field except
variant B's user_notes that default is non-empty, but the user_notes
default is the empty string, so the output is not always a non-empty
placeholder. -/
theorem claim_C4 (d : HDoc) (k : V91.FKey)
    (h : slotMissing d k = true ∨ V91.rawFields d k = "") :
    V91.parse_html_fields d k = V91.DEFAULTS k := by
  have hraw : V91.rawFields d k = "" := by
    rcases h with h | h
    · cases k
      case user_notes => exact userRaw_empty d h
      all_goals
        first
        | exact getTextSel_empty _ d h
        | exact secVal_none _ _ h
    · exact h
  rw [V91.parse_html_fields, hraw]
  rfl

/-- C4 witness: on the empty document the title slot is absent and the
extraction yields the schema default TBD. -/
theorem claim_C4_witness :
    slotMissing (⟨[]⟩ : HDoc) V91.FKey.title = true ∧
      V91.parse_html_fields (⟨[]⟩ : HDoc) V91.FKey.title = V91.DEFAULTS V91.FKey.title :=
  ⟨rfl, claim_C4 ⟨[]⟩ .title (Or.inl rfl)⟩

/-! ## C6: fail-open totality -/

/-- C6: extraction is a total function of the document tree -- the parse of
arbitrary (including malformed) markup is the html parser's concern and
never fails, and parse_html_fields is defined for every tree and every key,
so a complete field map always comes back.  For any document in which no
slot selector matches anything, the result is exactly the all-default
field map. -/
theorem claim_C6 (d : HDoc)
    (h1 : select sH1 d = []) (h2 : select sLeftTag d = [])
    (h3 : select sRightTag d = []) (h4 : select sLeftSecP d = [])
    (h5 : select sRightSecP d = []) (h6 : select sUserSecP d = []) :
    V91.FIELD_KEYS.map (V91.parse_html_fields d) = V91.FIELD_KEYS.map V91.DEFAULTS := by
  have hraw : ∀ k, V91.rawFields d k = "" := by
    intro k
    cases k <;>
      simp [V91.rawFields, V91.getTextSel, V91.secVal, selectOne,
        h1, h2, h3, h4, h5, h6]
  simp [V91.FIELD_KEYS, V91.parse_html_fields, hraw]

/-- C6 witness: a document with no recognized slot at all extracts to the
all-default field map. -/
theorem claim_C6_witness :
    select sH1 (⟨[.elem "div" [] [] [.text "hello"]]⟩ : HDoc) = [] ∧
      select sLeftTag (⟨[.elem "div" [] [] [.text "hello"]]⟩ : HDoc) = [] ∧
      select sRightTag (⟨[.elem "div" [] [] [.text "hello"]]⟩ : HDoc) = [] ∧
      select sLeftSecP (⟨[.elem "div" [] [] [.text "hello"]]⟩ : HDoc) = [] ∧
      select sRightSecP (⟨[.elem "div" [] [] [.text "hello"]]⟩ : HDoc) = [] ∧
      select sUserSecP (⟨[.elem "div" [] [] [.text "hello"]]⟩ : HDoc) = [] ∧
      V91.FIELD_KEYS.map (V91.parse_html_fields ⟨[.elem "div" [] [] [.text "hello"]]⟩)
        = V91.FIELD_KEYS.map V91.DEFAULTS :=
  ⟨rfl, rfl, rfl, rfl, rfl, rfl, claim_C6 _ rfl rfl rfl rfl rfl rfl⟩

/-! ## C5: structural trim -/

/-- Trimming a left panel with seven sections keeps exactly the first
five. -/
theorem trimPanelLeft7_slide (l : Option String) (t ll rl : List Inl)
    (L1 L2 L3 L4 L5 L6 L7 R1 R2 R3 R4 R5 u : Sec) (v s : String) :
    V91.trimPanel sLeftSec
      (slideDoc l t ll rl [L1, L2, L3, L4, L5, L6, L7] [R1, R2, R3, R4, R5] u v s)
    = slideDoc l t ll rl [L1, L2, L3, L4, L5] [R1, R2, R3, R4, R5] u v s := by
  simp [V91.trimPanel, select, selNode, selList, stepChains, isHit, matchesS,
    sLeftSec, dropDoc, dropNode, dropList, dropList_inl, brSafeChains, selList_inl,
    slideDoc, h1Node, panelNode, secNode, sideLabelNode, tagNode, pNode, h3Node,
    userPanelNode, extraNode, langAttrs]

/-- C5 counterexample: the claim states the structural trim for both
variants, but the variant A synthesizer (as_is_to_be_5.py) has no trim
step: synthesizing a document whose left panel has six sections leaves all
six in place. -/
theorem claim_C5_cex :
    (select sLeftSec c5doc).length = 6 ∧
      (select sLeftSec (V5.apply_fields_to_html c5doc xFields none)).length = 6 := by
  constructor
  · rfl
  · simp [V5.apply_fields_to_html, V5.langStep, V5.setTextSel, V5.setSec, V5.headStep,
      V5.stringSet, select, selectOne, selNode, selList, stepChains, isHit, matchesS,
      updDoc, updNode, updList, c5doc, secNode, h3Node, pNode, inlNode, xFields,
      panelNode, sideLabelNode, tagNode, nodeTruthy,
      sH1, sLeftTag, sRightTag, sLeftSecP, sRightSecP, sLeftSec, sRightSec,
      V5.sPagenum, V5.sFooterStrong]

/-- C5 (amended): the structural trim is a step of the variant B
synthesizer only.  In variant B, synthesizing a template document whose
left panel has seven sections produces exactly five sections in that
panel, and the five retained sections hold the first five field values of
that panel in positional order; the variant A synthesizer performs no trim
and leaves surplus sections in place (see the counterexample). -/
theorem claim_C5 (l : Option String) (t ll rl : List Inl)
    (L1 L2 L3 L4 L5 L6 L7 R1 R2 R3 R4 R5 u : Sec) (v s : String) (f : V91.FKey → String) :
    select sLeftSec
      (V91.apply_fields_to_html
        (slideDoc l t ll rl [L1, L2, L3, L4, L5, L6, L7] [R1, R2, R3, R4, R5] u v s)
        f none)
    = [secNode ⟨L1.head, encodeI (f .left_people)⟩,
       secNode ⟨L2.head, encodeI (f .left_process)⟩,
       secNode ⟨L3.head, encodeI (f .left_technology)⟩,
       secNode ⟨L4.head, encodeI (f .left_data)⟩,
       secNode ⟨L5.head, encodeI (f .left_output)⟩] := by
  rw [V91.apply_fields_to_html, langStep_none, V91.trimStep, trimPanelLeft7_slide,
    trimPanelRight_slide, trimUserStep_slide, writeStep_slide, headStep_none,
    footerStep_slide, moveUserStep_slide, select_sLeftSec_slide]

/-! ## C9: extraction reads only the first five sections -/

theorem slideDocU_singleton (l : Option String) (t ll rl : List Inl)
    (ls rs : List Sec) (u : Sec) (v s : String) :
    slideDocU l t ll rl ls rs [u] v s = slideDoc l t ll rl ls rs u v s := rfl

theorem select_sH1_big (l : Option String) (t ll rl : List Inl)
    (L1 L2 L3 L4 L5 L6 L7 R1 R2 R3 R4 R5 R6 R7 u u2 : Sec) (v s : String) :
    select sH1 (slideDocU l t ll rl [L1, L2, L3, L4, L5, L6, L7]
      [R1, R2, R3, R4, R5, R6, R7] [u, u2] v s) = [h1Node t] := by
  simp [select, slideDocU, selNode, selList, stepChains, isHit, matchesS, sH1,
    h1Node, panelNode, secNode, sideLabelNode, tagNode, pNode, h3Node,
    userPanelNodeL, extraNode, langAttrs, selList_inl, brSafeChains]

theorem select_sLeftTag_big (l : Option String) (t ll rl : List Inl)
    (L1 L2 L3 L4 L5 L6 L7 R1 R2 R3 R4 R5 R6 R7 u u2 : Sec) (v s : String) :
    select sLeftTag (slideDocU l t ll rl [L1, L2, L3, L4, L5, L6, L7]
      [R1, R2, R3, R4, R5, R6, R7] [u, u2] v s) = [tagNode ll] := by
  simp [select, slideDocU, selNode, selList, stepChains, isHit, matchesS, sLeftTag,
    h1Node, panelNode, secNode, sideLabelNode, tagNode, pNode, h3Node,
    userPanelNodeL, extraNode, langAttrs, selList_inl, brSafeChains]

theorem select_sRightTag_big (l : Option String) (t ll rl : List Inl)
    (L1 L2 L3 L4 L5 L6 L7 R1 R2 R3 R4 R5 R6 R7 u u2 : Sec) (v s : String) :
    select sRightTag (slideDocU l t ll rl [L1, L2, L3, L4, L5, L6, L7]
      [R1, R2, R3, R4, R5, R6, R7] [u, u2] v s) = [tagNode rl] := by
  simp [select, slideDocU, selNode, selList, stepChains, isHit, matchesS, sRightTag,
    h1Node, panelNode, secNode, sideLabelNode, tagNode, pNode, h3Node,
    userPanelNodeL, extraNode, langAttrs, selList_inl, brSafeChains]

theorem select_sLeftSecP_big (l : Option String) (t ll rl : List Inl)
    (L1 L2 L3 L4 L5 L6 L7 R1 R2 R3 R4 R5 R6 R7 u u2 : Sec) (v s : String) :
    select sLeftSecP (slideDocU l t ll rl [L1, L2, L3, L4, L5, L6, L7]
      [R1, R2, R3, R4, R5, R6, R7] [u, u2] v s)
    = [pNode L1.ps, pNode L2.ps, pNode L3.ps, pNode L4.ps, pNode L5.ps,
       pNode L6.ps, pNode L7.ps] := by
  simp [select, slideDocU, selNode, selList, stepChains, isHit, matchesS, sLeftSecP,
    h1Node, panelNode, secNode, sideLabelNode, tagNode, pNode, h3Node,
    userPanelNodeL, extraNode, langAttrs, selList_inl, brSafeChains]

theorem select_sRightSecP_big (l : Option String) (t ll rl : List Inl)
    (L1 L2 L3 L4 L5 L6 L7 R1 R2 R3 R4 R5 R6 R7 u u2 : Sec) (v s : String) :
    select sRightSecP (slideDocU l t ll rl [L1, L2, L3, L4, L5, L6, L7]
      [R1, R2, R3, R4, R5, R6, R7] [u, u2] v s)
    = [pNode R1.ps, pNode R2.ps, pNode R3.ps, pNode R4.ps, pNode R5.ps,
       pNode R6.ps, pNode R7.ps] := by
  simp [select, slideDocU, selNode, selList, stepChains, isHit, matchesS, sRightSecP,
    h1Node, panelNode, secNode, sideLabelNode, tagNode, pNode, h3Node,
    userPanelNodeL, extraNode, langAttrs, selList_inl, brSafeChains]

theorem select_sUserSecP_big (l : Option String) (t ll rl : List Inl)
    (L1 L2 L3 L4 L5 L6 L7 R1 R2 R3 R4 R5 R6 R7 u u2 : Sec) (v s : String) :
    select sUserSecP (slideDocU l t ll rl [L1, L2, L3, L4, L5, L6, L7]
      [R1, R2, R3, R4, R5, R6, R7] [u, u2] v s)
    = [pNode u.ps, pNode u2.ps] := by
  simp [select, slideDocU, selNode, selList, stepChains, isHit, matchesS, sUserSecP,
    h1Node, panelNode, secNode, sideLabelNode, tagNode, pNode, h3Node,
    userPanelNodeL, extraNode, langAttrs, selList_inl, brSafeChains]

/-- The raw extraction of a document with seven sections per panel and two
notes sections reads only the first five sections and the first notes
section. -/
theorem rawFields_bigdoc (l : Option String) (t ll rl : List Inl)
    (L1 L2 L3 L4 L5 L6 L7 R1 R2 R3 R4 R5 R6 R7 u u2 : Sec) (v s : String)
    (k : V91.FKey) :
    V91.rawFields (slideDocU l t ll rl [L1, L2, L3, L4, L5, L6, L7]
      [R1, R2, R3, R4, R5, R6, R7] [u, u2] v s) k
    = slideRaw t ll rl L1 L2 L3 L4 L5 R1 R2 R3 R4 R5 u k := by
  cases k <;>
    simp only [V91.rawFields, V91.getTextSel, V91.secVal, selectOne, slideRaw,
      select_sH1_big, select_sLeftTag_big, select_sRightTag_big,
      select_sLeftSecP_big, select_sRightSecP_big, select_sUserSecP_big,
      List.head?_cons, List.getElem?_cons_zero, List.getElem?_cons_succ,
      h1Node, tagNode, pNode, twn_mapInl, truthy_decodeInl]

/-- C9: appending sections after the fifth in either panel, or notes
sections after the first, leaves every extracted field unchanged --
extraction reads only the first five section paragraphs per panel and the
first notes paragraph. -/
theorem claim_C9 (l : Option String) (t ll rl : List Inl)
    (L1 L2 L3 L4 L5 L6 L7 R1 R2 R3 R4 R5 R6 R7 u u2 : Sec) (v s : String)
    (k : V91.FKey) :
    V91.parse_html_fields (slideDocU l t ll rl [L1, L2, L3, L4, L5, L6, L7]
      [R1, R2, R3, R4, R5, R6, R7] [u, u2] v s) k
    = V91.parse_html_fields (slideDocU l t ll rl [L1, L2, L3, L4, L5]
      [R1, R2, R3, R4, R5] [u] v s) k := by
  simp only [V91.parse_html_fields, rawFields_bigdoc, slideDocU_singleton,
    rawFields_slideDoc]

/-! ## C8: footer removal

Counting lemmas: removal removes every match and never adds elements, and
the user-panel move permutes the element multiset. -/

theorem remove_self (p : String → List String → List (String × String) → Bool) :
    ∀ ns : List Node, cList p (removeList p ns) = 0
  | [] => rfl
  | .text s :: ns => by
    simp only [removeList, removeNode, cList, cNode]
    simpa using remove_self p ns
  | .elem t cl a ch :: ns => by
    by_cases hp : p t cl a = true
    · simp only [removeList, removeNode, hp, if_true]
      exact remove_self p ns
    · have hp2 : p t cl a = false := by
        cases hpv : p t cl a
        · rfl
        · exact absurd hpv hp
      simp only [removeList, removeNode, hp2, Bool.false_eq_true, if_false, cList,
        cNode, Nat.zero_add]
      rw [remove_self p ch, remove_self p ns]

theorem remove_mono (p q : String → List String → List (String × String) → Bool) :
    ∀ ns : List Node, cList p (removeList q ns) ≤ cList p ns
  | [] => Nat.le_refl _
  | .text s :: ns => by
    simp only [removeList, removeNode, cList, cNode]
    simpa using remove_mono p q ns
  | .elem t cl a ch :: ns => by
    by_cases hq : q t cl a = true
    · simp only [removeList, removeNode, hq, if_true, cList, cNode]
      exact Nat.le_trans (remove_mono p q ns) (Nat.le_add_left _ _)
    · have hq2 : q t cl a = false := by
        cases hqv : q t cl a
        · rfl
        · exact absurd hqv hq
      simp only [removeList, removeNode, hq2, Bool.false_eq_true, if_false, cList,
        cNode]
      have h1 := remove_mono p q ch
      have h2 := remove_mono p q ns
      omega

theorem remove_zero_pres (p q : String → List String → List (String × String) → Bool)
    (ns : List Node) (h : cList p ns = 0) : cList p (removeList q ns) = 0 :=
  Nat.le_zero.mp (h ▸ remove_mono p q ns)

theorem cList_or_zero (p q : String → List String → List (String × String) → Bool) :
    ∀ ns : List Node, cList p ns = 0 → cList q ns = 0 →
      cList (fun t cl a => p t cl a || q t cl a) ns = 0
  | [] => fun _ _ => rfl
  | .text s :: ns => by
    intro hp hq
    simp only [cList, cNode] at hp hq ⊢
    simp only [Nat.zero_add] at hp hq ⊢
    exact cList_or_zero p q ns hp hq
  | .elem t cl a ch :: ns => by
    intro hp hq
    simp only [cList, cNode] at hp hq ⊢
    by_cases hpv : p t cl a = true
    · rw [hpv] at hp; simp at hp
    · have hpv2 : p t cl a = false := by
        cases h2 : p t cl a
        · rfl
        · exact absurd h2 hpv
      by_cases hqv : q t cl a = true
      · rw [hqv] at hq; simp at hq
      · have hqv2 : q t cl a = false := by
          cases h2 : q t cl a
          · rfl
          · exact absurd h2 hqv
        rw [hpv2] at hp
        rw [hqv2] at hq
        simp only [Bool.false_eq_true, if_false, Nat.zero_add] at hp hq
        simp only [hpv2, hqv2, Bool.or_self, Bool.false_eq_true, if_false,
          Nat.zero_add]
        have c1 : cList p ch = 0 := by omega
        have c2 : cList q ch = 0 := by omega
        have c3 : cList p ns = 0 := by omega
        have c4 : cList q ns = 0 := by omega
        rw [cList_or_zero p q ch c1 c2, cList_or_zero p q ns c3 c4]

theorem cList_append (p : String → List String → List (String × String) → Bool) :
    ∀ as bs : List Node, cList p (as ++ bs) = cList p as + cList p bs
  | [], bs => by simp [cList]
  | n :: as, bs => by
    simp only [List.cons_append, cList, List.append_eq]
    rw [cList_append p as bs]
    omega

theorem move_count (p q : String → List String → List (String × String) → Bool) :
    ∀ ns : List Node, cList p ((moveList q ns).1) = cList p ns
  | [] => rfl
  | .text s :: ns => by
    simp only [moveList, cList, cNode]
    simpa using move_count p q ns
  | .elem t cl a ch :: ns => by
    by_cases hq : q t cl a = true
    · simp only [moveList, hq, if_true]
      rw [cList_append]
      simp only [cList, cNode, Nat.add_zero]
      omega
    · have hq2 : q t cl a = false := by
        cases hqv : q t cl a
        · rfl
        · exact absurd hqv hq
      simp only [moveList, hq2, Bool.false_eq_true, if_false, moveNode]
      by_cases hf : (moveList q ch).2 = true
      · simp only [hf, if_true, cList, cNode]
        rw [move_count p q ch]
      · have hf2 : (moveList q ch).2 = false := by
          cases hfv : (moveList q ch).2
          · rfl
          · exact absurd hfv hf
        simp only [hf2, Bool.false_eq_true, if_false, cList, cNode]
        rw [move_count p q ch, move_count p q ns]

theorem moveUserStep_count (p : String → List String → List (String × String) → Bool)
    (d : HDoc) :
    countDoc p (V91.moveUserStep d) = countDoc p d := by
  rw [V91.moveUserStep]
  cases h : selectOne [sUserPanel] d with
  | none => rfl
  | some el =>
    by_cases ht : nodeTruthy el = true
    · simp only [ht, if_true, moveDoc, countDoc]
      exact move_count p _ d.nodes
    · have ht2 : nodeTruthy el = false := by
        cases htv : nodeTruthy el
        · rfl
        · exact absurd htv ht
      simp only [ht2, Bool.false_eq_true, if_false]

/-- After the footer-removal step, no footer landmark remains anywhere in
the document, whatever the input. -/
theorem footerStep_no_landmark (d : HDoc) :
    countDoc isFooterLandmark (V91.footerStep d) = 0 := by
  simp only [V91.footerStep, V91.footerBasicSSels, List.foldl, removeDoc, countDoc]
  have h1 :
      cList (fun t cl a => matchesS ⟨some "footer", [], none⟩ t cl a)
        (removeList V91.classFooterPred (removeList V91.idFooterPred
          (removeList (fun t cl a => matchesS ⟨none, ["app-footer"], none⟩ t cl a)
            (removeList (fun t cl a => matchesS ⟨none, ["site-footer"], none⟩ t cl a)
              (removeList (fun t cl a => matchesS ⟨none, ["page-footer"], none⟩ t cl a)
                (removeList (fun t cl a => matchesS ⟨none, [], some ("id", "footer")⟩ t cl a)
                  (removeList (fun t cl a => matchesS ⟨none, ["footer"], none⟩ t cl a)
                    (removeList (fun t cl a => matchesS ⟨none, [], some ("role", "contentinfo")⟩ t cl a)
                      (removeList (fun t cl a => matchesS ⟨some "footer", [], none⟩ t cl a)
                        d.nodes))))))))) = 0 :=
    remove_zero_pres _ _ _ (remove_zero_pres _ _ _ (remove_zero_pres _ _ _
      (remove_zero_pres _ _ _ (remove_zero_pres _ _ _ (remove_zero_pres _ _ _
        (remove_zero_pres _ _ _ (remove_zero_pres _ _ _ (remove_self _ _))))))))
  have h2 :
      cList (fun t cl a => matchesS ⟨none, [], some ("role", "contentinfo")⟩ t cl a)
        (removeList V91.classFooterPred (removeList V91.idFooterPred
          (removeList (fun t cl a => matchesS ⟨none, ["app-footer"], none⟩ t cl a)
            (removeList (fun t cl a => matchesS ⟨none, ["site-footer"], none⟩ t cl a)
              (removeList (fun t cl a => matchesS ⟨none, ["page-footer"], none⟩ t cl a)
                (removeList (fun t cl a => matchesS ⟨none, [], some ("id", "footer")⟩ t cl a)
                  (removeList (fun t cl a => matchesS ⟨none, ["footer"], none⟩ t cl a)
                    (removeList (fun t cl a => matchesS ⟨none, [], some ("role", "contentinfo")⟩ t cl a)
                      (removeList (fun t cl a => matchesS ⟨some "footer", [], none⟩ t cl a)
                        d.nodes))))))))) = 0 :=
    remove_zero_pres _ _ _ (remove_zero_pres _ _ _ (remove_zero_pres _ _ _
      (remove_zero_pres _ _ _ (remove_zero_pres _ _ _ (remove_zero_pres _ _ _
        (remove_zero_pres _ _ _ (remove_self _ _)))))))
  have h8 :
      cList V91.idFooterPred
        (removeList V91.classFooterPred (removeList V91.idFooterPred
          (removeList (fun t cl a => matchesS ⟨none, ["app-footer"], none⟩ t cl a)
            (removeList (fun t cl a => matchesS ⟨none, ["site-footer"], none⟩ t cl a)
              (removeList (fun t cl a => matchesS ⟨none, ["page-footer"], none⟩ t cl a)
                (removeList (fun t cl a => matchesS ⟨none, [], some ("id", "footer")⟩ t cl a)
                  (removeList (fun t cl a => matchesS ⟨none, ["footer"], none⟩ t cl a)
                    (removeList (fun t cl a => matchesS ⟨none, [], some ("role", "contentinfo")⟩ t cl a)
                      (removeList (fun t cl a => matchesS ⟨some "footer", [], none⟩ t cl a)
                        d.nodes))))))))) = 0 :=
    remove_zero_pres _ _ _ (remove_self _ _)
  have h9 :
      cList V91.classFooterPred
        (removeList V91.classFooterPred (removeList V91.idFooterPred
          (removeList (fun t cl a => matchesS ⟨none, ["app-footer"], none⟩ t cl a)
            (removeList (fun t cl a => matchesS ⟨none, ["site-footer"], none⟩ t cl a)
              (removeList (fun t cl a => matchesS ⟨none, ["page-footer"], none⟩ t cl a)
                (removeList (fun t cl a => matchesS ⟨none, [], some ("id", "footer")⟩ t cl a)
                  (removeList (fun t cl a => matchesS ⟨none, ["footer"], none⟩ t cl a)
                    (removeList (fun t cl a => matchesS ⟨none, [], some ("role", "contentinfo")⟩ t cl a)
                      (removeList (fun t cl a => matchesS ⟨some "footer", [], none⟩ t cl a)
                        d.nodes))))))))) = 0 :=
    remove_self _ _
  have h12 := cList_or_zero _ _ _ h1 h2
  have h128 := cList_or_zero _ V91.idFooterPred _ h12 h8
  exact cList_or_zero _ V91.classFooterPred _ h128 h9

/-- C8, general part: the variant B synthesizer always produces a document
with zero footer-landmark elements, for every base document, field map and
language option. -/
theorem apply91_no_landmark (d : HDoc) (f : V91.FKey → String) (l : Option String) :
    countDoc isFooterLandmark (V91.apply_fields_to_html d f l) = 0 := by
  rw [V91.apply_fields_to_html, moveUserStep_count]
  exact footerStep_no_landmark _

theorem ulList_inl (p : String → List String → List (String × String) → Bool)
    (il : List Inl) (hbr : p "br" [] [] = false) :
    ulList p (List.map inlNode il) = none := by
  induction il with
  | nil => simp [ulList]
  | cons i r ih =>
    cases i with
    | txt s2 => simpa [ulList, inlNode] using ih
    | br =>
      simp only [List.map_cons, inlNode, brNode, ulList, hbr, Bool.false_eq_true,
        if_false]
      simpa [ulNode, ulList] using ih

theorem userLast_slide (l : Option String) (t ll rl : List Inl)
    (L1 L2 L3 L4 L5 R1 R2 R3 R4 R5 u : Sec) (v s : String) :
    userPanelLast (slideDoc l t ll rl [L1, L2, L3, L4, L5] [R1, R2, R3, R4, R5] u v s)
    = true := by
  simp [userPanelLast, ulList, ulNode, slideDoc, h1Node, panelNode, secNode,
    sideLabelNode, tagNode, pNode, h3Node, userPanelNode, extraNode, langAttrs,
    matchesS, sUserPanel, ulList_inl]

/-- The variant B synthesizer maps the template family into itself for
every language option. -/
theorem apply91_slide_shape (tl : Option String) (l : Option String) (t ll rl : List Inl)
    (L1 L2 L3 L4 L5 R1 R2 R3 R4 R5 u : Sec) (v s : String) (f : V91.FKey → String) :
    ∃ l2 t2 ll2 rl2 M1 M2 M3 M4 M5 N1 N2 N3 N4 N5 u2,
      V91.apply_fields_to_html
        (slideDoc l t ll rl [L1, L2, L3, L4, L5] [R1, R2, R3, R4, R5] u v s) f tl
      = slideDoc l2 t2 ll2 rl2 [M1, M2, M3, M4, M5] [N1, N2, N3, N4, N5] u2 v s := by
  cases tl with
  | none =>
    exact ⟨_, _, _, _, _, _, _, _, _, _, _, _, _, _, _,
      apply91_slide_none l t ll rl L1 L2 L3 L4 L5 R1 R2 R3 R4 R5 u v s f⟩
  | some x =>
    by_cases hx1 : x = "sl"
    · subst hx1
      exact ⟨_, _, _, _, _, _, _, _, _, _, _, _, _, _, _,
        apply91_slide_sl l t ll rl L1 L2 L3 L4 L5 R1 R2 R3 R4 R5 u v s f⟩
    · by_cases hx2 : x = "en"
      · subst hx2
        exact ⟨_, _, _, _, _, _, _, _, _, _, _, _, _, _, _,
          apply91_slide_en l t ll rl L1 L2 L3 L4 L5 R1 R2 R3 R4 R5 u v s f⟩
      · exact ⟨_, _, _, _, _, _, _, _, _, _, _, _, _, _, _,
          apply91_slide_other l t ll rl L1 L2 L3 L4 L5 R1 R2 R3 R4 R5 u v s f x
            (by simp [hx1]) (by simp [hx2])⟩

/-- C8: the variant B synthesizer produces zero footer-landmark elements
for every base document, field map and language option -- in particular
both for a first synthesis and for a second synthesis over the first
output; and on template-family documents (where the notes panel is
present) the notes panel is the last child of its parent after one and
after two syntheses. -/
theorem claim_C8 :
    (∀ (d : HDoc) (f : V91.FKey → String) (l : Option String),
        countDoc isFooterLandmark (V91.apply_fields_to_html d f l) = 0)
    ∧ (∀ (l : Option String) (t ll rl : List Inl)
        (L1 L2 L3 L4 L5 R1 R2 R3 R4 R5 u : Sec) (v s : String)
        (f f2 : V91.FKey → String) (tl tl2 : Option String),
        userPanelLast (V91.apply_fields_to_html
          (slideDoc l t ll rl [L1, L2, L3, L4, L5] [R1, R2, R3, R4, R5] u v s) f tl)
          = true
        ∧ userPanelLast (V91.apply_fields_to_html (V91.apply_fields_to_html
            (slideDoc l t ll rl [L1, L2, L3, L4, L5] [R1, R2, R3, R4, R5] u v s) f tl)
            f2 tl2) = true) := by
  constructor
  · exact apply91_no_landmark
  · intro l t ll rl L1 L2 L3 L4 L5 R1 R2 R3 R4 R5 u v s f f2 tl tl2
    obtain ⟨l2, t2, ll2, rl2, M1, M2, M3, M4, M5, N1, N2, N3, N4, N5, u2, h1⟩ :=
      apply91_slide_shape tl l t ll rl L1 L2 L3 L4 L5 R1 R2 R3 R4 R5 u v s f
    rw [h1]
    obtain ⟨l3, t3, ll3, rl3, P1, P2, P3, P4, P5, Q1, Q2, Q3, Q4, Q5, u3, h2⟩ :=
      apply91_slide_shape tl2 l2 t2 ll2 rl2 M1 M2 M3 M4 M5 N1 N2 N3 N4 N5 u2 v s f2
    rw [h2]
    exact ⟨userLast_slide _ _ _ _ _ _ _ _ _ _ _ _ _ _ _ _ _,
      userLast_slide _ _ _ _ _ _ _ _ _ _ _ _ _ _ _ _ _⟩

end Slide
